import Mathlib

/-!
# p-monitor: metrics collection engine

A shallow embedding of the collection engine of `p-monitor`
(`pkg/gpu/gpu.go`, `pkg/monitor/system.go`, `pkg/monitor/monitor.go`,
`pkg/config/config.go`, `pkg/types/metrics.go`) and theorems about it.

Modelling conventions.

* Go strings are Lean strings (sequences of Unicode code points); the text
  functions of package `strings` are defined on the list of characters.
* `float64` is an arbitrary type `F` with a zero, a division and an
  embedding of the integers; `strconv.ParseFloat` is a parameter
  `String → Except String F`.  Nothing is assumed about rounding.
* A Go `error` is the `Except String` monad, the string being `err.Error()`.
* A pointer that may be `nil` is an `Option`.
* Calls to the operating system and to external tools are fields of `Host`.
* Writes to the diagnostic log are not modelled: they have no effect on any
  value the program computes.
-/

namespace PMonitor

/-! ## Package `strings` -/

/-- The scan behind `strings.Split(s, sep)` for a non-empty separator: `acc`
holds the current field in reverse, `skip` counts the characters of a separator
occurrence that remain to be stepped over.  At every position outside a
separator occurrence the first occurrence of `sep` from there on is looked for,
exactly as the `Index` loop of `genSplit` does. -/
def splitAux (sep : List Char) : List Char → List Char → Nat → List (List Char)
  | [], acc, _ => [acc.reverse]
  | _ :: cs, acc, skip + 1 => splitAux sep cs acc skip
  | c :: cs, acc, 0 =>
    if sep.isPrefixOf (c :: cs) then
      acc.reverse :: splitAux sep cs [] (sep.length - 1)
    else
      splitAux sep cs (c :: acc) 0

/-- Go `strings.Split(s, sep)` for a non-empty `sep`: the fields between the
successive non-overlapping occurrences of `sep`, leftmost first. -/
def split (s sep : String) : List String :=
  (splitAux sep.toList s.toList [] 0).map String.mk

/-- Go `unicode.IsSpace`: the Unicode White_Space code points. -/
def isSpace (c : Char) : Bool :=
  let n := c.toNat
  n == 0x09 || n == 0x0A || n == 0x0B || n == 0x0C || n == 0x0D || n == 0x20 ||
  n == 0x85 || n == 0xA0 || n == 0x1680 || (0x2000 ≤ n && n ≤ 0x200A) ||
  n == 0x2028 || n == 0x2029 || n == 0x202F || n == 0x205F || n == 0x3000

/-- Go `strings.TrimSpace`: leading and trailing white space removed. -/
def trimSpace (s : String) : String :=
  String.mk ((s.toList.dropWhile isSpace).reverse.dropWhile isSpace).reverse

/-- Whether `sub` occurs in `s` as a contiguous block. -/
def containsAux (sub : List Char) : List Char → Bool
  | [] => sub.isEmpty
  | c :: cs => sub.isPrefixOf (c :: cs) || containsAux sub cs

/-- Go `strings.Contains(s, substr)`. -/
def contains (s substr : String) : Bool :=
  containsAux substr.toList s.toList

/-- Go `strings.HasPrefix(s, p)`. -/
def hasPrefixStr (s p : String) : Bool :=
  p.toList.isPrefixOf s.toList

/-- Go `unicode.ToLower` as far as a comparison with an ASCII word can see it:
exact on ASCII and on the two non-ASCII code points whose lower case is an
ASCII letter (U+0130 gives i, U+212A gives k).  Any other non-ASCII code point
is left as it is; Go maps it to a non-ASCII code point, and neither can match
an ASCII character. -/
def toLowerRune (c : Char) : Char :=
  if c.toNat = 0x130 then 'i'
  else if c.toNat = 0x212A then 'k'
  else c.toLower

/-- Go `strings.ToLower`. -/
def toLower (s : String) : String :=
  String.mk (s.toList.map toLowerRune)

/-! ## Package `types` -/

/-- The struct `types.DiskMetrics`. -/
structure DiskMetrics (F : Type) where
  Total : Nat
  Used : Nat
  UsedPercent : F
  Error : String
  deriving DecidableEq, Repr

/-- The struct `types.MemoryMetrics`. -/
structure MemoryMetrics (F : Type) where
  Total : Nat
  Used : Nat
  UsedPercent : F
  Error : String
  deriving DecidableEq, Repr

/-- The struct `types.CPUMetrics`. -/
structure CPUMetrics (F : Type) where
  UsagePercent : F
  Temperature : F
  Error : String
  deriving DecidableEq, Repr

/-- The struct `types.GPUMetrics`; the field `Type` is spelled `Type_`. -/
structure GPUMetrics (F : Type) where
  Name : String
  Type_ : String
  UsagePercent : F
  Temperature : F
  Error : String
  deriving DecidableEq, Repr

/-! ## Package `gpu`: the nvidia-smi line parser -/

/-- The pattern `v, err := strconv.ParseFloat(..); if err != nil { v = 0 }`. -/
def floatOrZero {F : Type} [Zero F] : Except String F → F
  | .ok v => v
  | .error _ => 0

/-- The function `parseNVIDIALine` of `gpu.go`; `pf` is
`strconv.ParseFloat(·, 64)`. -/
def parseNVIDIALine {F : Type} [Zero F] (pf : String → Except String F)
    (line : String) : Option (GPUMetrics F) :=
  let parts := split line ", "
  if parts.length < 4 then
    none
  else
    let index := trimSpace (parts.getD 0 "")
    let name := trimSpace (parts.getD 1 "")
    let usageStr := trimSpace (parts.getD 2 "")
    let usage := floatOrZero (pf usageStr)
    let tempStr := trimSpace (parts.getD 3 "")
    let temperature := floatOrZero (pf tempStr)
    some
      { Name := "NVIDIA GPU " ++ index ++ " (" ++ name ++ ")"
        Type_ := "nvidia"
        UsagePercent := usage
        Temperature := temperature
        Error := "" }

/-! ## The host: operating system, external tools, library parsers -/

/-- The fields of `disk.UsageStat` and of `mem.VirtualMemoryStat` that the
program reads. -/
structure UsageStat (F : Type) where
  Total : Nat
  Used : Nat
  UsedPercent : F

/-- Everything the program asks of its surroundings during one call. -/
structure Host (F : Type) where
  /-- The call `strconv.ParseFloat(s, 64)`. -/
  parseFloat : String → Except String F
  /-- The call `os.ReadFile(path)`, the bytes read as text. -/
  readFile : String → Except String String
  /-- The call `filepath.Glob(pattern)`. -/
  glob : String → Except String (List String)
  /-- The call `os.ReadDir(dir)`: the entry names. -/
  readDir : String → Except String (List String)
  /-- The call `disk.Usage(path)`. -/
  diskUsage : String → Except String (UsageStat F)
  /-- The call `mem.VirtualMemory()`. -/
  virtualMemory : Except String (UsageStat F)
  /-- The call `cpu.Percent(time.Second, false)`. -/
  cpuPercent : Except String (List F)
  /-- Whether `exec.LookPath(cmd)` succeeds. -/
  lookPath : String → Bool
  /-- The call `exec.Command(name, args...).Output()`. -/
  output : String → List String → Except String String
  /-- The call `time.Now()`. -/
  now : Nat

/-! ## Package `gpu`: the collectors -/

/-- The function `commandExists`. -/
def commandExists {F : Type} (h : Host F) (cmd : String) : Bool :=
  h.lookPath cmd

/-- The line loop of `collectNVIDIAGPUs`: blank lines are skipped, a parsed
entry is appended, a line that does not parse adds nothing. -/
def nvidiaLines {F : Type} [Zero F] (pf : String → Except String F)
    (lines : List String) : List (GPUMetrics F) :=
  lines.foldl
    (fun gpus line =>
      if trimSpace line = "" then gpus
      else
        match parseNVIDIALine pf line with
        | some gpu => gpus ++ [gpu]
        | none => gpus)
    []

/-- The function `collectNVIDIAGPUs`. -/
def collectNVIDIAGPUs {F : Type} [Zero F] (h : Host F) : List (GPUMetrics F) :=
  if !commandExists h "nvidia-smi" then []
  else
    match h.output "nvidia-smi"
        ["--query-gpu=index,name,utilization.gpu,temperature.gpu",
         "--format=csv,noheader,nounits"] with
    | .error _ => []
    | .ok output => nvidiaLines h.parseFloat (split (trimSpace output) "\n")

/-- The class `\s` of Go regular expressions: tab, line feed, form feed,
carriage return, space. -/
def isReSpace (c : Char) : Bool :=
  let n := c.toNat
  n == 0x09 || n == 0x0A || n == 0x0C || n == 0x0D || n == 0x20

/-- A match of the regular expression `gpu\s+(\d+\.?\d*)%` that starts at the
head of `cs`; the value is the text of group 1.  The classes of the successive
pieces are disjoint, so the greedy choice at each piece is the only one that
can lead to a match. -/
def matchUsageAt (cs : List Char) : Option (List Char) :=
  match cs with
  | 'g' :: 'p' :: 'u' :: r =>
    let ws := r.takeWhile isReSpace
    let r1 := r.dropWhile isReSpace
    if ws.isEmpty then none
    else
      let d1 := r1.takeWhile Char.isDigit
      let r2 := r1.dropWhile Char.isDigit
      if d1.isEmpty then none
      else
        match r2 with
        | '%' :: _ => some d1
        | '.' :: r3 =>
          match r3.dropWhile Char.isDigit with
          | '%' :: _ => some (d1 ++ '.' :: r3.takeWhile Char.isDigit)
          | _ => none
        | _ => none
  | _ => none

/-- Group 1 of `re.FindStringSubmatch(line)`: the leftmost match. -/
def findUsage : List Char → Option (List Char)
  | [] => none
  | c :: cs =>
    match matchUsageAt (c :: cs) with
    | some g => some g
    | none => findUsage cs

/-- The line loop of `parseRadeontopOutput`. -/
def radeontopLines {F : Type} [Zero F] (pf : String → Except String F) :
    List String → Option (GPUMetrics F)
  | [] => none
  | line :: rest =>
    if contains line "gpu" && contains line "%" then
      match findUsage line.toList with
      | some g =>
        match pf (String.mk g) with
        | .error _ => radeontopLines pf rest
        | .ok usage =>
          some
            { Name := "AMD GPU"
              Type_ := "amd"
              UsagePercent := usage
              Temperature := 0
              Error := "" }
      | none => radeontopLines pf rest
    else radeontopLines pf rest

/-- The function `parseRadeontopOutput`. -/
def parseRadeontopOutput {F : Type} [Zero F] (pf : String → Except String F)
    (output : String) : Option (GPUMetrics F) :=
  radeontopLines pf (split output "\n")

/-- The function `collectAMDGPUs`. -/
def collectAMDGPUs {F : Type} [Zero F] (h : Host F) : List (GPUMetrics F) :=
  if !commandExists h "radeontop" then []
  else
    match h.output "radeontop" ["-l", "1", "-d", "-"] with
    | .error _ => []
    | .ok output =>
      match parseRadeontopOutput h.parseFloat output with
      | some gpu => [gpu]
      | none => []

/-- The function `collectIntegratedGPU`. -/
def collectIntegratedGPU {F : Type} [Zero F] (h : Host F) : Option (GPUMetrics F) :=
  if commandExists h "lspci" then
    match h.output "lspci" ["-v"] with
    | .error _ => none
    | .ok output =>
      if contains output "VGA" && (contains output "Intel" || contains output "AMD") then
        some
          { Name := "Integrated GPU"
            Type_ := "integrated"
            UsagePercent := 0
            Temperature := 0
            Error := "Integrated GPU monitoring not fully implemented" }
      else none
  else none

/-- The function `CollectAllGPUMetrics`: the three appends in turn. -/
def CollectAllGPUMetrics {F : Type} [Zero F] (h : Host F) : List (GPUMetrics F) :=
  let gpus : List (GPUMetrics F) := []
  let gpus := gpus ++ collectNVIDIAGPUs h
  let gpus := gpus ++ collectAMDGPUs h
  match collectIntegratedGPU h with
  | some integratedGPU => gpus ++ [integratedGPU]
  | none => gpus

/-! ## Package `monitor`: `system.go` -/

/-- The function `getDiskUsage`. -/
def getDiskUsage {F : Type} (h : Host F) (path : String) : Except String (UsageStat F) :=
  h.diskUsage path

/-- The function `getMemoryUsage`. -/
def getMemoryUsage {F : Type} (h : Host F) : Except String (UsageStat F) :=
  h.virtualMemory

/-- The function `getCPUUsage`. -/
def getCPUUsage {F : Type} (h : Host F) : Except String F :=
  match h.cpuPercent with
  | .error err => .error err
  | .ok [] => .error "no CPU usage data available"
  | .ok (p :: _) => .ok p

/-- The function `readThermalFile`; the constant `1000.0` is the integer 1000
in `F`. -/
def readThermalFile {F : Type} [Div F] [IntCast F] (h : Host F) (path : String) :
    Except String F :=
  let resolved : Except String String :=
    if contains path "*" then
      match h.glob path with
      | .ok (m :: _) => .ok m
      | _ => .error "no thermal files found"
    else .ok path
  match resolved with
  | .error err => .error err
  | .ok p =>
    match h.readFile p with
    | .error err => .error err
    | .ok data =>
      match h.parseFloat (trimSpace data) with
      | .error err => .error err
      | .ok temp => .ok (temp / ((1000 : Int) : F))

/-- The directory scanned by `findThermalZone`. -/
def thermalDir : String := "/sys/class/thermal"

/-- The call `filepath.Join(dir, name, leaf)` for a directory entry `name`: an
entry name has no separator and is neither "." nor "..", so the cleaned result
is the three parts joined by the separator. -/
def pathJoin (dir name leaf : String) : String :=
  dir ++ "/" ++ name ++ "/" ++ leaf

/-- The loop of `findThermalZone` over the directory entries. -/
def scanThermalZones {F : Type} [Div F] [IntCast F] (h : Host F) :
    List String → Except String F
  | [] => .error "no CPU thermal zone found"
  | name :: rest =>
    if hasPrefixStr name "thermal_zone" then
      match readThermalFile h (pathJoin thermalDir name "temp") with
      | .ok temp =>
        match h.readFile (pathJoin thermalDir name "type") with
        | .ok typeData =>
          let zoneType := trimSpace typeData
          if contains (toLower zoneType) "cpu" ||
              contains (toLower zoneType) "x86" ||
              contains (toLower zoneType) "core" then
            .ok temp
          else scanThermalZones h rest
        | .error _ => scanThermalZones h rest
      | .error _ => scanThermalZones h rest
    else scanThermalZones h rest

/-- The function `findThermalZone`. -/
def findThermalZone {F : Type} [Div F] [IntCast F] (h : Host F) : Except String F :=
  match h.readDir thermalDir with
  | .error err => .error err
  | .ok entries => scanThermalZones h entries

/-- The candidate list `thermalPaths` of `getCPUTemperature`. -/
def thermalPaths : List String :=
  [ "/sys/class/thermal/thermal_zone0/temp",
    "/sys/class/thermal/thermal_zone1/temp",
    "/sys/devices/platform/coretemp.0/hwmon/hwmon*/temp1_input",
    "/sys/devices/virtual/thermal/thermal_zone0/temp" ]

/-- The loop of `getCPUTemperature` over the candidates: the first reading that
succeeds is returned, `none` when the loop falls through. -/
def tryThermalPaths {F : Type} [Div F] [IntCast F] (h : Host F) :
    List String → Option F
  | [] => none
  | path :: rest =>
    match readThermalFile h path with
    | .ok temp => some temp
    | .error _ => tryThermalPaths h rest

/-- The function `getCPUTemperature`. -/
def getCPUTemperature {F : Type} [Div F] [IntCast F] (h : Host F) : Except String F :=
  match tryThermalPaths h thermalPaths with
  | some temp => .ok temp
  | none =>
    match findThermalZone h with
    | .ok temp => .ok temp
    | .error _ => .error "CPU temperature not available"

/-! ## Package `config` -/

/-- The struct `config.Config`. -/
structure Config where
  UpdateInterval : Int
  TimeUnit : String
  TemperatureUnit : String
  deriving DecidableEq, Repr

/-- The value of an integer expression in a signed 64-bit word (Go `int` and
`int64` on the 64-bit platforms the program targets): two's complement
wrap-around. -/
def wrap64 (x : Int) : Int :=
  (x + 2 ^ 63) % 2 ^ 64 - 2 ^ 63

/-- Go `a * b` on `int`: the product, wrapped to the 64-bit word. -/
def mulInt (a b : Int) : Int :=
  wrap64 (a * b)

/-- The function `Default`. -/
def Default : Config :=
  { UpdateInterval := 5, TimeUnit := "seconds", TemperatureUnit := "celsius" }

/-- The method `GetUpdateIntervalSeconds`. -/
def GetUpdateIntervalSeconds (c : Config) : Int :=
  if c.TimeUnit = "minutes" then mulInt c.UpdateInterval 60
  else c.UpdateInterval

/-! ## Package `monitor`: `monitor.go` -/

/-- The struct `types.SystemMetrics`; `Updated` is the capture time. -/
structure SystemMetrics (F : Type) where
  Disk : Option (DiskMetrics F)
  Memory : Option (MemoryMetrics F)
  CPU : Option (CPUMetrics F)
  GPUs : List (GPUMetrics F)
  Updated : Nat

/-- The struct `Monitor`.  A `*SystemMetrics` is the index of the snapshot in
the heap of the program state; `metrics` is the content of the channel of
capacity 1.  The context and its cancel function appear as the event `done` of
the loop of `Start`. -/
structure Monitor where
  config : Config
  metrics : List Nat
  latest : Option Nat

/-- The function `New`. -/
def New (cfg : Config) : Monitor :=
  { config := cfg, metrics := [], latest := none }

/-- The method `collectDiskMetrics`. -/
def collectDiskMetrics {F : Type} [Zero F] (h : Host F) : DiskMetrics F :=
  match getDiskUsage h "/" with
  | .error err => { Total := 0, Used := 0, UsedPercent := 0, Error := err }
  | .ok usage =>
    { Total := usage.Total, Used := usage.Used, UsedPercent := usage.UsedPercent, Error := "" }

/-- The method `collectMemoryMetrics`. -/
def collectMemoryMetrics {F : Type} [Zero F] (h : Host F) : MemoryMetrics F :=
  match getMemoryUsage h with
  | .error err => { Total := 0, Used := 0, UsedPercent := 0, Error := err }
  | .ok usage =>
    { Total := usage.Total, Used := usage.Used, UsedPercent := usage.UsedPercent, Error := "" }

/-- The method `collectCPUMetrics`. -/
def collectCPUMetrics {F : Type} [Zero F] [Div F] [IntCast F] (h : Host F) : CPUMetrics F :=
  match getCPUUsage h with
  | .error err => { UsagePercent := 0, Temperature := 0, Error := err }
  | .ok usage =>
    match getCPUTemperature h with
    | .error _ => { UsagePercent := usage, Temperature := 0, Error := "" }
    | .ok temp => { UsagePercent := usage, Temperature := temp, Error := "" }

/-- The method `collectGPUMetrics`. -/
def collectGPUMetrics {F : Type} [Zero F] (h : Host F) : List (GPUMetrics F) :=
  CollectAllGPUMetrics h

/-- Where the collecting goroutine stands: outside `collectMetrics`, or inside
it just before the named statement. -/
inductive Pc where
  | idle
  | disk
  | memory
  | cpu
  | gpus
  | publish
  | send
  deriving DecidableEq, Repr

/-- The program state: the snapshots allocated so far (a `*SystemMetrics` is an
index into `heap`), the monitor, the position of the collecting goroutine and
its local variable `metrics`. -/
structure State (F : Type) where
  heap : List (SystemMetrics F)
  m : Monitor
  pc : Pc
  cur : Nat

/-- The state right after `New(cfg)`. -/
def State.init (F : Type) (cfg : Config) : State F :=
  { heap := [], m := New cfg, pc := .idle, cur := 0 }

/-- A field assignment through the pointer `a`. -/
def heapUpdate {α : Type} (heap : List α) (a : Nat) (f : α → α) : List α :=
  match heap[a]? with
  | some x => heap.set a (f x)
  | none => heap

/-- One statement of `collectMetrics`, in source order: the allocation of the
new snapshot with its time stamp, the four field assignments, the assignment to
`m.latest`, the non-blocking send. -/
def step {F : Type} [Zero F] [Div F] [IntCast F] (h : Host F) (s : State F) : State F :=
  match s.pc with
  | .idle =>
    { s with
      heap := s.heap ++ [{ Disk := none, Memory := none, CPU := none, GPUs := [], Updated := h.now }]
      cur := s.heap.length
      pc := .disk }
  | .disk =>
    { s with
      heap := heapUpdate s.heap s.cur (fun x => { x with Disk := some (collectDiskMetrics h) })
      pc := .memory }
  | .memory =>
    { s with
      heap := heapUpdate s.heap s.cur (fun x => { x with Memory := some (collectMemoryMetrics h) })
      pc := .cpu }
  | .cpu =>
    { s with
      heap := heapUpdate s.heap s.cur (fun x => { x with CPU := some (collectCPUMetrics h) })
      pc := .gpus }
  | .gpus =>
    { s with
      heap := heapUpdate s.heap s.cur (fun x => { x with GPUs := collectGPUMetrics h })
      pc := .publish }
  | .publish =>
    { s with m := { s.m with latest := some s.cur }, pc := .send }
  | .send =>
    { s with
      m := { s.m with
        metrics := if s.m.metrics.length < 1 then s.m.metrics ++ [s.cur] else s.m.metrics }
      pc := .idle }

/-- The method `collectMetrics`: its seven statements in a row. -/
def collectMetrics {F : Type} [Zero F] [Div F] [IntCast F] (h : Host F) (s : State F) :
    State F :=
  step h (step h (step h (step h (step h (step h (step h s))))))

/-- The method `GetMetrics`: the pointer `m.latest`. -/
def GetMetrics {F : Type} (s : State F) : Option Nat :=
  s.m.latest

/-- The snapshot a pointer refers to. -/
def deref {F : Type} (s : State F) (a : Nat) : Option (SystemMetrics F) :=
  s.heap[a]?

/-- The state after the statements of `collectMetrics` have been executed one
after another, cycle after cycle, the host being `hs[i]` at statement `i`. -/
def run {F : Type} [Zero F] [Div F] [IntCast F] (cfg : Config) (hs : List (Host F)) :
    State F :=
  hs.foldl (fun s h => step h s) (State.init F cfg)

/-- The call `time.NewTicker(d)`, `d` in nanoseconds: it panics on a
non-positive `d`. -/
def NewTicker (d : Int) : Except String Int :=
  if d ≤ 0 then .error "non-positive interval for NewTicker" else .ok d

/-- What the `select` of the loop of `Start` receives. -/
inductive Event (F : Type) where
  | tick (h : Host F)
  | done

/-- The `for`/`select` loop of `Start`: a tick runs one collection, `done`
returns. -/
def startLoop {F : Type} [Zero F] [Div F] [IntCast F] : State F → List (Event F) → State F
  | s, [] => s
  | s, .tick h :: rest => startLoop (collectMetrics h s) rest
  | s, .done :: _ => s

/-- The method `Start`: the ticker is made from
`time.Duration(m.config.GetUpdateIntervalSeconds()) * time.Second`, then comes
the initial collection, then the loop.  The result is the error of a panic, or
the period of the ticker together with the state the loop has reached. -/
def Start {F : Type} [Zero F] [Div F] [IntCast F] (h0 : Host F) (s : State F)
    (events : List (Event F)) : Except String (Int × State F) :=
  match NewTicker (mulInt (GetUpdateIntervalSeconds s.m.config) 1000000000) with
  | .error err => .error err
  | .ok period => .ok (period, startLoop (collectMetrics h0 s) events)

/-! ## A sample number reader

The theorems below hold for every `pf`.  For concrete checks the parameter is
instantiated with a reader of plain decimal literals over the rationals. -/

/-- Value of a string of decimal digits, `none` when a character is not a
digit. -/
def digitsValue : List Char → Nat → Option Nat
  | [], acc => some acc
  | c :: cs, acc =>
    if c.isDigit then digitsValue cs (10 * acc + (c.toNat - 48)) else none

/-- Reads `digits` or `digits.digits` with an optional sign. -/
def decimalUnsigned (cs : List Char) : Option ℚ :=
  let ip := cs.takeWhile Char.isDigit
  let rest := cs.dropWhile Char.isDigit
  if ip.isEmpty then none
  else
    match digitsValue ip 0, rest with
    | some n, [] => some (n : ℚ)
    | some n, '.' :: fp =>
      match digitsValue fp 0 with
      | some m => some ((n : ℚ) + (m : ℚ) / (10 : ℚ) ^ fp.length)
      | none => none
    | _, _ => none

/-- The sample instance of the `strconv.ParseFloat` parameter. -/
def decimalFloat (s : String) : Except String ℚ :=
  let r :=
    match s.toList with
    | '-' :: cs => (decimalUnsigned cs).map (fun q => -q)
    | '+' :: cs => decimalUnsigned cs
    | cs => decimalUnsigned cs
  match r with
  | some q => .ok q
  | none => .error ("strconv.ParseFloat: parsing " ++ s ++ ": invalid syntax")

/-- A host for concrete checks: the first thermal candidate holds text that is
not a number, the second holds 45000 millidegrees, no other file exists, the
disk probe fails, the memory and CPU probes succeed, no vendor tool is
installed. -/
def sampleHost : Host ℚ :=
  { parseFloat := decimalFloat
    readFile := fun path =>
      if path = "/sys/class/thermal/thermal_zone0/temp" then .ok "not-a-number\n"
      else if path = "/sys/class/thermal/thermal_zone1/temp" then .ok "45000\n"
      else .error "no such file or directory"
    glob := fun _ => .ok []
    readDir := fun _ => .error "no such file or directory"
    diskUsage := fun _ => .error "no such file or directory"
    virtualMemory := .ok { Total := 16000, Used := 4000, UsedPercent := 25 }
    cpuPercent := .ok [10]
    lookPath := fun _ => false
    output := fun _ _ => .error "executable file not found in $PATH"
    now := 0 }

/-- A host on which no thermal file exists: `sampleHost` without its files. -/
def bareHost : Host ℚ :=
  { sampleHost with readFile := fun _ => .error "no such file or directory" }

/-- The snapshot that one run of `collectMetrics` on the host `h` builds. -/
def cycleSnapshot {F : Type} [Zero F] [Div F] [IntCast F] (h : Host F) : SystemMetrics F :=
  { Disk := some (collectDiskMetrics h)
    Memory := some (collectMemoryMetrics h)
    CPU := some (collectCPUMetrics h)
    GPUs := collectGPUMetrics h
    Updated := h.now }

/-- The position of the collecting goroutine after `n` statements of
`collectMetrics`, counted from `New`. -/
def pcAt (n : Nat) : Pc :=
  match n % 7 with
  | 0 => .idle
  | 1 => .disk
  | 2 => .memory
  | 3 => .cpu
  | 4 => .gpus
  | 5 => .publish
  | _ => .send

/-- The number of cycles that have published their snapshot (have executed
`m.latest = metrics`) after `n` statements: the assignment is the sixth
statement of a cycle. -/
def published (n : Nat) : Nat :=
  (n + 1) / 7

/-- The results that the statements of cycle `a` have stored in their snapshot
`snap` once the statements driven by `hs` are done: statement `7a+1` stores
Disk, `7a+2` Memory, `7a+3` CPU, each from the host of that statement. -/
def Stored {F : Type} [Zero F] [Div F] [IntCast F] (hs : List (Host F)) (a : Nat)
    (snap : SystemMetrics F) : Prop :=
  (7 * a + 2 ≤ hs.length →
    ∃ h, hs[7 * a + 1]? = some h ∧ snap.Disk = some (collectDiskMetrics h)) ∧
  (7 * a + 3 ≤ hs.length →
    ∃ h, hs[7 * a + 2]? = some h ∧ snap.Memory = some (collectMemoryMetrics h)) ∧
  (7 * a + 4 ≤ hs.length →
    ∃ h, hs[7 * a + 3]? = some h ∧ snap.CPU = some (collectCPUMetrics h))

/-- What holds of the state after the statements driven by `hs`: the position
and the local pointer are those of statement number `hs.length`, one snapshot
has been allocated per cycle begun, `m.latest` is nil before the first
publication and the last published pointer afterwards, and every snapshot
holds what the statements of its cycle have stored so far. -/
def CycleInv {F : Type} [Zero F] [Div F] [IntCast F] (hs : List (Host F)) (s : State F) :
    Prop :=
  s.pc = pcAt hs.length ∧
  s.heap.length = (hs.length + 6) / 7 ∧
  s.cur = (hs.length - 1) / 7 ∧
  s.m.latest = (if published hs.length = 0 then none else some (published hs.length - 1)) ∧
  ∀ a snap, s.heap[a]? = some snap → Stored hs a snap

/-- A configuration with the interval 0. -/
def zeroConfig : Config :=
  { UpdateInterval := 0, TimeUnit := "seconds", TemperatureUnit := "celsius" }

/-- A host with nvidia-smi installed; its output has a malformed line of two
fields between two valid lines. -/
def nvidiaHost : Host ℚ :=
  { sampleHost with
    lookPath := fun cmd => cmd = "nvidia-smi"
    output := fun _ _ => .ok "0, Test GPU, 45.5, 62.0\nbad, line\n1, Other GPU, 10, 50\n" }

/-- The claim of a device-level test, in the words of the specification: the
listing mentions a display-class (VGA) device whose vendor is one of the
keywords.  lspci names the class and the vendor of a device on one line, so
this asks for a line of the listing that contains "VGA" together with "Intel"
or "AMD". -/
def mentionsIntegratedVGADevice (output : String) : Bool :=
  (split output "\n").any
    (fun line => contains line "VGA" && (contains line "Intel" || contains line "AMD"))

/-- The placeholder entry of `collectIntegratedGPU`. -/
def integratedPlaceholder (F : Type) [Zero F] : GPUMetrics F :=
  { Name := "Integrated GPU"
    Type_ := "integrated"
    UsagePercent := 0
    Temperature := 0
    Error := "Integrated GPU monitoring not fully implemented" }

/-- The listing of a machine with an Intel network controller and an NVIDIA
graphics card. -/
def lspciListing : String :=
  "00:1f.6 Ethernet controller: Intel Corporation\n01:00.0 VGA compatible controller: NVIDIA\n"

/-- A host with lspci installed that prints `lspciListing`. -/
def lspciHost : Host ℚ :=
  { sampleHost with
    lookPath := fun cmd => cmd = "lspci"
    output := fun _ _ => .ok lspciListing }

/-- The entry that `parseRadeontopOutput` builds for the usage `usage`. -/
def amdEntry {F : Type} [Zero F] (usage : F) : GPUMetrics F :=
  { Name := "AMD GPU"
    Type_ := "amd"
    UsagePercent := usage
    Temperature := 0
    Error := "" }

/-- The usage that a line of radeontop output yields: the number captured by
the leftmost match of the pattern, when there is a match and the number parser
accepts the captured text. -/
def lineUsage {F : Type} (pf : String → Except String F) (line : String) : Option F :=
  match findUsage line.toList with
  | some g =>
    match pf (String.mk g) with
    | .ok usage => some usage
    | .error _ => none
  | none => none

/-- An output of `radeontop -l 1 -d -`: the notice, then one sample. -/
def radeontopDump : String :=
  "Dumping to -, line limit 1.\n1700000000.1: bus 03, gpu 4.17%, ee 0.00%, vgt 0.00%\n"

/-- Whether `s` contains `kw` as a case-insensitive substring, in the words of
the specification: the two texts are compared with their ASCII letters folded
to lower case. -/
def containsIgnoreCase (s kw : String) : Bool :=
  containsAux (kw.toList.map Char.toLower) (s.toList.map Char.toLower)

/-- Whether a type label names a CPU zone, in the words of the specification:
it contains one of the keywords "cpu", "x86", "core" as a case-insensitive
substring. -/
def isCPULabel (label : String) : Bool :=
  containsIgnoreCase label "cpu" || containsIgnoreCase label "x86" ||
    containsIgnoreCase label "core"

/-- The reading of a directory entry that qualifies as a CPU thermal zone: the
entry is a thermal zone, its temp file is readable and numeric, its type file
is readable and the label in it names a CPU zone; `none` for any other entry. -/
def zoneReading {F : Type} [Div F] [IntCast F] (h : Host F) (name : String) : Option F :=
  if hasPrefixStr name "thermal_zone" then
    match readThermalFile h (pathJoin thermalDir name "temp") with
    | .ok temp =>
      match h.readFile (pathJoin thermalDir name "type") with
      | .ok typeData => if isCPULabel (trimSpace typeData) then some temp else none
      | .error _ => none
    | .error _ => none
  else none

/-- A host whose thermal directory lists a cooling device and three zones: an
ACPI zone at 30 degrees, the x86 package zone at 45, a CPU zone at 50. -/
def zoneHost : Host ℚ :=
  { sampleHost with
    readDir := fun _ => .ok ["cooling_device0", "thermal_zone0", "thermal_zone1", "thermal_zone2"]
    readFile := fun path =>
      if path = "/sys/class/thermal/thermal_zone0/temp" then .ok "30000\n"
      else if path = "/sys/class/thermal/thermal_zone0/type" then .ok "acpitz\n"
      else if path = "/sys/class/thermal/thermal_zone1/temp" then .ok "45000\n"
      else if path = "/sys/class/thermal/thermal_zone1/type" then .ok "x86_pkg_temp\n"
      else if path = "/sys/class/thermal/thermal_zone2/temp" then .ok "50000\n"
      else if path = "/sys/class/thermal/thermal_zone2/type" then .ok "CPU-therm\n"
      else .error "no such file or directory" }

/-! ## Facts about `split` -/

theorem splitAux_length_le_count (t : List Char) (cs acc : List Char) (skip : Nat) :
    (splitAux (',' :: t) cs acc skip).length ≤ 1 + cs.count ',' := by
  induction cs generalizing acc skip with
  | nil => simp [splitAux]
  | cons c cs ih =>
    cases skip with
    | succ k =>
      simp only [splitAux]
      have h1 := ih acc k
      have h2 : cs.count ',' ≤ (c :: cs).count ',' := by
        rw [List.count_cons]; omega
      omega
    | zero =>
      simp only [splitAux]
      split
      · rename_i hp
        have hc : c = ',' := by
          simp only [List.isPrefixOf, Bool.and_eq_true, beq_iff_eq] at hp
          exact hp.1.symm
        subst hc
        have h1 := ih [] ((',' :: t).length - 1)
        simp only [List.length_cons, List.count_cons_self] at h1 ⊢
        omega
      · have h1 := ih (c :: acc) 0
        have h2 : cs.count ',' ≤ (c :: cs).count ',' := by
          rw [List.count_cons]; omega
        omega

theorem splitAux_comma_length (cs acc : List Char) :
    (splitAux [','] cs acc 0).length = 1 + cs.count ',' := by
  induction cs generalizing acc with
  | nil => simp [splitAux]
  | cons c cs ih =>
    simp only [splitAux]
    split
    · rename_i hp
      have hc : c = ',' := by
        simp only [List.isPrefixOf, Bool.and_eq_true, beq_iff_eq] at hp
        exact hp.1.symm
      subst hc
      simp only [List.length_cons, List.length_nil, List.count_cons_self]
      have h1 := ih []
      simp only [Nat.sub_self] at *
      omega
    · rename_i hp
      have hc : c ≠ ',' := by
        intro h
        apply hp
        subst h
        simp [List.isPrefixOf]
      rw [ih, List.count_cons_of_ne (Ne.symm hc)]

/-- Splitting at comma-space never gives more fields than splitting at the
comma alone. -/
theorem split_commaSpace_length_le (line : String) :
    (split line ", ").length ≤ (split line ",").length := by
  have h1 := splitAux_length_le_count [' '] line.toList [] 0
  have h2 := splitAux_comma_length line.toList []
  have e1 : (", " : String).toList = [',', ' '] := rfl
  have e2 : ("," : String).toList = [','] := rfl
  simp only [split, List.length_map, e1, e2]
  omega

theorem parseNVIDIALine_eq_none_iff {F : Type} [Zero F] (pf : String → Except String F)
    (line : String) :
    parseNVIDIALine pf line = none ↔ (split line ", ").length < 4 := by
  unfold parseNVIDIALine
  by_cases h : (split line ", ").length < 4 <;> simp [h]

/-! ## Facts about `contains` -/

theorem containsAux_iff_part (sub s : List Char) :
    containsAux sub s = true ↔ sub <:+: s := by
  induction s with
  | nil =>
    rw [List.infix_nil]
    cases sub <;> simp [containsAux]
  | cons c cs ih =>
    simp only [containsAux, Bool.or_eq_true, List.infix_cons_iff, ih,
      List.isPrefixOf_iff_prefix]

theorem contains_iff_part (s sub : String) :
    contains s sub = true ↔ sub.toList <:+: s.toList := by
  unfold contains
  exact containsAux_iff_part _ _

/-- Every field that `splitAux` produces is a contiguous part of the text. -/
theorem mem_splitAux_part (sep : List Char) (cs acc : List Char) (skip : Nat)
    (hs : skip = 0 ∨ acc = []) (x : List Char) (hx : x ∈ splitAux sep cs acc skip) :
    x <:+: acc.reverse ++ cs := by
  induction cs generalizing acc skip with
  | nil =>
    simp only [splitAux, List.mem_singleton] at hx
    subst hx
    simp
  | cons c cs ih =>
    cases skip with
    | succ k =>
      have hacc : acc = [] := by
        rcases hs with h | h
        · omega
        · exact h
      subst hacc
      simp only [splitAux] at hx
      have h1 := ih [] k (Or.inr rfl) hx
      simp only [List.reverse_nil, List.nil_append] at h1 ⊢
      exact List.infix_cons_iff.mpr (Or.inr h1)
    | zero =>
      simp only [splitAux] at hx
      split at hx
      · rcases List.mem_cons.mp hx with h | h
        · subst h
          exact (List.prefix_append _ _).isInfix
        · have h1 := ih [] _ (Or.inr rfl) h
          simp only [List.reverse_nil, List.nil_append] at h1
          exact h1.trans ((List.suffix_cons c cs).isInfix.trans
            (List.suffix_append _ _).isInfix)
      · have h1 := ih (c :: acc) 0 (Or.inl rfl) hx
        simpa using h1

/-- What a field of `split` contains, the text contains. -/
theorem contains_of_mem_split (s sep line sub : String) (hl : line ∈ split s sep)
    (hc : contains line sub = true) : contains s sub = true := by
  rw [contains_iff_part] at hc ⊢
  simp only [split, List.mem_map] at hl
  obtain ⟨l, hmem, rfl⟩ := hl
  have h1 := mem_splitAux_part sep.toList s.toList [] 0 (Or.inl rfl) l hmem
  simp only [List.reverse_nil, List.nil_append] at h1
  exact hc.trans h1

/-! ## Facts about the radeontop parser -/

/-- A match at the head of `cs` is the marker, white space, the captured text
and a percent sign. -/
theorem matchUsageAt_shape (cs g : List Char) (h : matchUsageAt cs = some g) :
    ∃ ws rest, cs = 'g' :: 'p' :: 'u' :: (ws ++ g ++ '%' :: rest) ∧ ws ≠ [] ∧
      (∀ c ∈ ws, isReSpace c = true) ∧ g ≠ [] := by
  unfold matchUsageAt at h
  split at h
  · rename_i r
    simp only at h
    split at h
    · exact Option.noConfusion h
    · rename_i hws
      split at h
      · exact Option.noConfusion h
      · rename_i hd1
        have hr : r = r.takeWhile isReSpace ++ r.dropWhile isReSpace :=
          (List.takeWhile_append_dropWhile isReSpace r).symm
        have hr1 : r.dropWhile isReSpace =
            (r.dropWhile isReSpace).takeWhile Char.isDigit ++
              (r.dropWhile isReSpace).dropWhile Char.isDigit :=
          (List.takeWhile_append_dropWhile Char.isDigit _).symm
        have hwsne : r.takeWhile isReSpace ≠ [] := by
          intro he; apply hws; simp [he]
        have hd1ne : (r.dropWhile isReSpace).takeWhile Char.isDigit ≠ [] := by
          intro he; apply hd1; simp [he]
        have hwsall : ∀ c ∈ r.takeWhile isReSpace, isReSpace c = true :=
          fun c hc => (List.mem_takeWhile_imp hc)
        split at h
        · rename_i rest hr2
          injection h with h
          subst h
          refine ⟨r.takeWhile isReSpace, rest, ?_, hwsne, hwsall, hd1ne⟩
          rw [List.append_assoc, ← hr2, ← hr1, ← hr]
        · rename_i r3 hr2
          split at h
          · rename_i rest hr4
            injection h with h
            subst h
            have hr3 : r3 = r3.takeWhile Char.isDigit ++ r3.dropWhile Char.isDigit :=
              (List.takeWhile_append_dropWhile Char.isDigit r3).symm
            refine ⟨r.takeWhile isReSpace, rest, ?_, hwsne, hwsall, by simp⟩
            have e : (r.dropWhile isReSpace).takeWhile Char.isDigit ++
                '.' :: List.takeWhile Char.isDigit r3 ++ '%' :: rest =
                (r.dropWhile isReSpace).takeWhile Char.isDigit ++ '.' :: r3 := by
              rw [List.append_assoc, List.cons_append, ← hr4, ← hr3]
            rw [List.append_assoc, e, ← hr2, ← hr1, ← hr]
          · exact Option.noConfusion h
        · exact Option.noConfusion h
  · exact Option.noConfusion h

/-- The leftmost match lies somewhere in the line. -/
theorem findUsage_shape (cs g : List Char) (h : findUsage cs = some g) :
    ∃ pre ws rest, cs = pre ++ 'g' :: 'p' :: 'u' :: (ws ++ g ++ '%' :: rest) ∧ ws ≠ [] ∧
      (∀ c ∈ ws, isReSpace c = true) ∧ g ≠ [] := by
  induction cs with
  | nil => exact Option.noConfusion h
  | cons c cs ih =>
    simp only [findUsage] at h
    split at h
    · rename_i g2 hm
      injection h with h
      subst h
      obtain ⟨ws, rest, e, h1, h2, h3⟩ := matchUsageAt_shape _ _ hm
      exact ⟨[], ws, rest, by simpa using e, h1, h2, h3⟩
    · obtain ⟨pre, ws, rest, e, h1, h2, h3⟩ := ih h
      exact ⟨c :: pre, ws, rest, by simp [e], h1, h2, h3⟩

/-- A line with a match contains the marker and a percent sign, so the test
that guards the match never rejects such a line. -/
theorem findUsage_contains (line : String) (g : List Char)
    (h : findUsage line.toList = some g) :
    contains line "gpu" = true ∧ contains line "%" = true := by
  obtain ⟨pre, ws, rest, e, -, -, -⟩ := findUsage_shape _ _ h
  constructor
  · rw [contains_iff_part, e]
    exact ⟨pre, ws ++ g ++ '%' :: rest, by simp⟩
  · rw [contains_iff_part, e]
    exact ⟨pre ++ 'g' :: 'p' :: 'u' :: (ws ++ g), rest, by simp⟩

theorem radeontopLines_cons {F : Type} [Zero F] (pf : String → Except String F)
    (line : String) (rest : List String) :
    radeontopLines pf (line :: rest) =
      match lineUsage pf line with
      | some usage => some (amdEntry usage)
      | none => radeontopLines pf rest := by
  simp only [radeontopLines, lineUsage]
  cases hf : findUsage line.toList with
  | none => simp
  | some g =>
    obtain ⟨h1, h2⟩ := findUsage_contains line g hf
    simp only [h1, h2, Bool.and_self, if_true]
    cases pf (String.mk g) <;> rfl

theorem radeontopLines_eq_findSome {F : Type} [Zero F] (pf : String → Except String F)
    (lines : List String) :
    radeontopLines pf lines = (lines.findSome? (lineUsage pf)).map amdEntry := by
  induction lines with
  | nil => rfl
  | cons line rest ih =>
    rw [radeontopLines_cons, List.findSome?_cons]
    cases lineUsage pf line with
    | none => simpa using ih
    | some usage => rfl

theorem lineUsage_of_none {F : Type} (pf : String → Except String F) (line : String)
    (hf : findUsage line.toList = none) : lineUsage pf line = none := by
  unfold lineUsage
  rw [hf]

theorem lineUsage_of_ok {F : Type} (pf : String → Except String F) (line : String)
    (g : List Char) (u : F) (hf : findUsage line.toList = some g)
    (hp : pf (String.mk g) = .ok u) : lineUsage pf line = some u := by
  unfold lineUsage
  rw [hf]
  simp only [hp]

theorem lineUsage_eq_some {F : Type} (pf : String → Except String F) (line : String)
    (u : F) (h : lineUsage pf line = some u) :
    ∃ g, findUsage line.toList = some g ∧ pf (String.mk g) = .ok u := by
  unfold lineUsage at h
  split at h
  · rename_i g hf
    split at h
    · rename_i v hp
      injection h with h
      subst h
      exact ⟨g, hf, hp⟩
    · exact Option.noConfusion h
  · exact Option.noConfusion h

theorem radeontopLines_some {F : Type} [Zero F] (pf : String → Except String F)
    (lines : List String) (e : GPUMetrics F) (h : radeontopLines pf lines = some e) :
    ∃ pre line post g, lines = pre ++ line :: post ∧
      (∀ l ∈ pre, lineUsage pf l = none) ∧
      findUsage line.toList = some g ∧ pf (String.mk g) = .ok e.UsagePercent ∧
      e = amdEntry e.UsagePercent := by
  induction lines with
  | nil => exact Option.noConfusion h
  | cons line rest ih =>
    rw [radeontopLines_cons] at h
    cases hu : lineUsage pf line with
    | none =>
      rw [hu] at h
      obtain ⟨pre, l, post, g, e1, e2, e3, e4, e5⟩ := ih h
      refine ⟨line :: pre, l, post, g, by simp [e1], ?_, e3, e4, e5⟩
      intro x hx
      rcases List.mem_cons.mp hx with hx | hx
      · subst hx; exact hu
      · exact e2 x hx
    | some usage =>
      rw [hu] at h
      injection h with h
      subst h
      obtain ⟨g, hf, hp⟩ := lineUsage_eq_some pf line usage hu
      exact ⟨[], line, rest, g, rfl, by simp, hf, hp, rfl⟩

/-! ## Facts about the case-insensitive comparison -/

/-- For a character `k` that is none of i, k, U+0130, U+212A, the lower case of
Go and the ASCII lower case agree on whether a character becomes `k`. -/
theorem toLowerRune_beq (k : Char) (hi : k ≠ 'i') (hk : k ≠ 'k')
    (h1 : k.toNat ≠ 0x130) (h2 : k.toNat ≠ 0x212A) (c : Char) :
    (k == toLowerRune c) = (k == c.toLower) := by
  unfold toLowerRune
  by_cases hc1 : c.toNat = 0x130
  · have hl : c.toLower = c := by
      unfold Char.toLower
      simp [hc1]
    have hne : k ≠ c := by
      intro h; subst h; exact h1 hc1
    simp [hc1, hl, hi, hne]
  · by_cases hc2 : c.toNat = 0x212A
    · have hl : c.toLower = c := by
        unfold Char.toLower
        simp [hc2]
      have hne : k ≠ c := by
        intro h; subst h; exact h2 hc2
      simp [hc1, hc2, hl, hk, hne]
    · simp [hc1, hc2]

theorem isPrefixOf_map_congr (f g : Char → Char) (kw l : List Char)
    (hfg : ∀ k ∈ kw, ∀ c, (k == f c) = (k == g c)) :
    kw.isPrefixOf (l.map f) = kw.isPrefixOf (l.map g) := by
  induction kw generalizing l with
  | nil => simp [List.isPrefixOf]
  | cons k ks ih =>
    cases l with
    | nil => simp [List.isPrefixOf]
    | cons c cs =>
      simp only [List.map_cons, List.isPrefixOf]
      rw [hfg k (List.mem_cons_self k ks) c,
        ih cs (fun x hx => hfg x (List.mem_cons_of_mem k hx))]

theorem containsAux_map_congr (f g : Char → Char) (kw l : List Char)
    (hfg : ∀ k ∈ kw, ∀ c, (k == f c) = (k == g c)) :
    containsAux kw (l.map f) = containsAux kw (l.map g) := by
  induction l with
  | nil => rfl
  | cons c cs ih =>
    have hp := isPrefixOf_map_congr f g kw (c :: cs) hfg
    simp only [List.map_cons] at hp
    simp only [List.map_cons, containsAux, hp, ih]

/-- The test of the code for one keyword is the case-insensitive test, for a
keyword in lower case none of whose characters is i or k. -/
theorem contains_toLower_eq (label kw : String)
    (hlow : kw.toList.map Char.toLower = kw.toList)
    (hkw : ∀ k ∈ kw.toList, k ≠ 'i' ∧ k ≠ 'k' ∧ k.toNat ≠ 0x130 ∧ k.toNat ≠ 0x212A) :
    contains (toLower label) kw = containsIgnoreCase label kw := by
  unfold contains containsIgnoreCase toLower
  rw [hlow]
  exact containsAux_map_congr toLowerRune Char.toLower kw.toList label.toList
    (fun k hk c => toLowerRune_beq k (hkw k hk).1 (hkw k hk).2.1 (hkw k hk).2.2.1
      (hkw k hk).2.2.2 c)

/-- The keyword test of `findThermalZone` is `isCPULabel`. -/
theorem keywordTest_eq_isCPULabel (label : String) :
    (contains (toLower label) "cpu" || contains (toLower label) "x86" ||
      contains (toLower label) "core") = isCPULabel label := by
  unfold isCPULabel
  rw [contains_toLower_eq label "cpu" (by decide) (by decide),
    contains_toLower_eq label "x86" (by decide) (by decide),
    contains_toLower_eq label "core" (by decide) (by decide)]

/-! ## Facts about the thermal-zone scan -/

theorem scanThermalZones_cons {F : Type} [Div F] [IntCast F] (h : Host F)
    (name : String) (rest : List String) :
    scanThermalZones h (name :: rest) =
      match zoneReading h name with
      | some temp => .ok temp
      | none => scanThermalZones h rest := by
  simp only [scanThermalZones, zoneReading, keywordTest_eq_isCPULabel]
  by_cases hp : hasPrefixStr name "thermal_zone" = true
  · simp only [hp, if_true]
    cases readThermalFile h (pathJoin thermalDir name "temp") with
    | error e => rfl
    | ok temp =>
      cases h.readFile (pathJoin thermalDir name "type") with
      | error e => rfl
      | ok typeData =>
        by_cases hl : isCPULabel (trimSpace typeData) = true
        · simp [hl]
        · simp [hl]
  · simp [hp]

theorem scanThermalZones_eq_findSome {F : Type} [Div F] [IntCast F] (h : Host F)
    (entries : List String) :
    scanThermalZones h entries =
      match entries.findSome? (zoneReading h) with
      | some temp => .ok temp
      | none => .error "no CPU thermal zone found" := by
  induction entries with
  | nil => rfl
  | cons name rest ih =>
    rw [scanThermalZones_cons, List.findSome?_cons]
    cases zoneReading h name with
    | none => simpa using ih
    | some temp => rfl

theorem findSome?_first {α β : Type} (f : α → Option β) (pre : List α) (x : α)
    (post : List α) (b : β) (hpre : ∀ z ∈ pre, f z = none) (hx : f x = some b) :
    (pre ++ x :: post).findSome? f = some b := by
  induction pre with
  | nil => simp [List.findSome?_cons, hx]
  | cons z zs ih =>
    have hz := hpre z (List.mem_cons_self z zs)
    simp only [List.cons_append, List.findSome?_cons, hz]
    exact ih (fun w hw => hpre w (List.mem_cons_of_mem z hw))

theorem findSome?_none_of_all {α β : Type} (f : α → Option β) (l : List α)
    (hall : ∀ z ∈ l, f z = none) : l.findSome? f = none := by
  induction l with
  | nil => rfl
  | cons z zs ih =>
    simp only [List.findSome?_cons, hall z (List.mem_cons_self z zs)]
    exact ih (fun w hw => hall w (List.mem_cons_of_mem z hw))

theorem findSome?_mem {α β : Type} (f : α → Option β) (l : List α) (b : β)
    (h : l.findSome? f = some b) : ∃ x ∈ l, f x = some b := by
  induction l with
  | nil => exact Option.noConfusion h
  | cons z zs ih =>
    rw [List.findSome?_cons] at h
    cases hz : f z with
    | some v =>
      rw [hz] at h
      exact ⟨z, List.mem_cons_self z zs, hz.trans h⟩
    | none =>
      rw [hz] at h
      obtain ⟨x, hx, hfx⟩ := ih h
      exact ⟨x, List.mem_cons_of_mem z hx, hfx⟩

theorem zoneReading_eq_some {F : Type} [Div F] [IntCast F] (h : Host F) (name : String)
    (t : F) (hz : zoneReading h name = some t) :
    hasPrefixStr name "thermal_zone" = true ∧
      readThermalFile h (pathJoin thermalDir name "temp") = .ok t ∧
      ∃ typeData, h.readFile (pathJoin thermalDir name "type") = .ok typeData ∧
        isCPULabel (trimSpace typeData) = true := by
  unfold zoneReading at hz
  split at hz
  · rename_i hp
    split at hz
    · rename_i temp ht
      split at hz
      · rename_i typeData hty
        split at hz
        · rename_i hl
          injection hz with hz
          subst hz
          exact ⟨hp, ht, typeData, hty, hl⟩
        · exact Option.noConfusion hz
      · exact Option.noConfusion hz
    · exact Option.noConfusion hz
  · exact Option.noConfusion hz

/-! ## Facts about the candidate loop -/

theorem tryThermalPaths_first {F : Type} [Div F] [IntCast F] (h : Host F)
    (pre : List String) (p : String) (post : List String) (t : F)
    (hpre : ∀ q ∈ pre, ∃ e, readThermalFile h q = .error e)
    (hp : readThermalFile h p = .ok t) :
    tryThermalPaths h (pre ++ p :: post) = some t := by
  induction pre with
  | nil => simp [tryThermalPaths, hp]
  | cons q qs ih =>
    obtain ⟨e, he⟩ := hpre q (List.mem_cons_self q qs)
    have hrest : ∀ r ∈ qs, ∃ e, readThermalFile h r = .error e :=
      fun r hr => hpre r (List.mem_cons_of_mem q hr)
    simp [tryThermalPaths, he, ih hrest]

theorem tryThermalPaths_none {F : Type} [Div F] [IntCast F] (h : Host F)
    (ps : List String) (hall : ∀ q ∈ ps, ∃ e, readThermalFile h q = .error e) :
    tryThermalPaths h ps = none := by
  induction ps with
  | nil => rfl
  | cons q qs ih =>
    obtain ⟨e, he⟩ := hall q (List.mem_cons_self q qs)
    have hrest : ∀ r ∈ qs, ∃ e, readThermalFile h r = .error e :=
      fun r hr => hall r (List.mem_cons_of_mem q hr)
    simp [tryThermalPaths, he, ih hrest]

theorem sampleHost_zone0 :
    readThermalFile sampleHost "/sys/class/thermal/thermal_zone0/temp" =
      .error "strconv.ParseFloat: parsing not-a-number: invalid syntax" := by
  have hc : contains "/sys/class/thermal/thermal_zone0/temp" "*" = false := by decide
  have ht : trimSpace "not-a-number\n" = "not-a-number" := by decide
  have hf : decimalFloat "not-a-number" =
      .error "strconv.ParseFloat: parsing not-a-number: invalid syntax" := by
    simp [decimalFloat, decimalUnsigned, digitsValue]
  simp only [readThermalFile, hc, sampleHost]
  simp [ht, hf]

theorem sampleHost_zone1 :
    readThermalFile sampleHost "/sys/class/thermal/thermal_zone1/temp" = .ok (45 : ℚ) := by
  have hc : contains "/sys/class/thermal/thermal_zone1/temp" "*" = false := by decide
  have ht : trimSpace "45000\n" = "45000" := by decide
  have hf : decimalFloat "45000" = .ok (45000 : ℚ) := by
    simp [decimalFloat, decimalUnsigned, digitsValue]
  simp only [readThermalFile, hc, sampleHost]
  simp [ht, hf]
  norm_num

/-! ## Facts about one collection cycle -/

theorem heapUpdate_append_last {α : Type} (l : List α) (x : α) (f : α → α) :
    heapUpdate (l ++ [x]) l.length f = l ++ [f x] := by
  simp [heapUpdate]

theorem heapUpdate_length {α : Type} (l : List α) (a : Nat) (f : α → α) :
    (heapUpdate l a f).length = l.length := by
  unfold heapUpdate
  split <;> simp

theorem heapUpdate_getElem?_ne {α : Type} (l : List α) (a b : Nat) (f : α → α)
    (hab : a ≠ b) : (heapUpdate l a f)[b]? = l[b]? := by
  unfold heapUpdate
  split
  · rw [List.getElem?_set_ne hab]
  · rfl

/-- A run of `collectMetrics` that starts outside a cycle appends exactly one
snapshot, fully built, and leaves `m.latest` pointing to it. -/
theorem collectMetrics_idle {F : Type} [Zero F] [Div F] [IntCast F] (h : Host F)
    (s : State F) (hpc : s.pc = .idle) :
    collectMetrics h s =
      { heap := s.heap ++ [cycleSnapshot h]
        m := { s.m with
          latest := some s.heap.length
          metrics :=
            if s.m.metrics.length < 1 then s.m.metrics ++ [s.heap.length] else s.m.metrics }
        pc := .idle
        cur := s.heap.length } := by
  simp only [collectMetrics, step, hpc, heapUpdate_append_last, cycleSnapshot]

/-- With a successful usage sample the CPU result has no error, whatever the
temperature probe returns. -/
theorem collectCPUMetrics_of_usage {F : Type} [Zero F] [Div F] [IntCast F] (h : Host F)
    (usage : F) (hu : getCPUUsage h = .ok usage) :
    collectCPUMetrics h =
      { UsagePercent := usage
        Temperature :=
          match getCPUTemperature h with
          | .ok t => t
          | .error _ => 0
        Error := "" } := by
  unfold collectCPUMetrics
  rw [hu]
  cases getCPUTemperature h <;> rfl

theorem bareHost_no_temperature :
    getCPUTemperature bareHost = .error "CPU temperature not available" := by
  have c0 : contains "/sys/class/thermal/thermal_zone0/temp" "*" = false := by decide
  have c1 : contains "/sys/class/thermal/thermal_zone1/temp" "*" = false := by decide
  have c2 : contains "/sys/devices/platform/coretemp.0/hwmon/hwmon*/temp1_input" "*" = true := by
    decide
  have c3 : contains "/sys/devices/virtual/thermal/thermal_zone0/temp" "*" = false := by decide
  simp [getCPUTemperature, thermalPaths, tryThermalPaths, readThermalFile, c0, c1, c2, c3,
    bareHost, sampleHost, findThermalZone]

/-! ## The CPU probe does not look at the disk probe -/

theorem readThermalFile_diskUsage {F : Type} [Div F] [IntCast F] (h : Host F)
    (du : String → Except String (UsageStat F)) (path : String) :
    readThermalFile { h with diskUsage := du } path = readThermalFile h path := rfl

theorem scanThermalZones_diskUsage {F : Type} [Div F] [IntCast F] (h : Host F)
    (du : String → Except String (UsageStat F)) (entries : List String) :
    scanThermalZones { h with diskUsage := du } entries = scanThermalZones h entries := by
  induction entries with
  | nil => rfl
  | cons name rest ih =>
    simp only [scanThermalZones, readThermalFile_diskUsage, ih]

theorem tryThermalPaths_diskUsage {F : Type} [Div F] [IntCast F] (h : Host F)
    (du : String → Except String (UsageStat F)) (paths : List String) :
    tryThermalPaths { h with diskUsage := du } paths = tryThermalPaths h paths := by
  induction paths with
  | nil => rfl
  | cons path rest ih =>
    simp only [tryThermalPaths, readThermalFile_diskUsage, ih]

theorem collectCPUMetrics_diskUsage {F : Type} [Zero F] [Div F] [IntCast F] (h : Host F)
    (du : String → Except String (UsageStat F)) :
    collectCPUMetrics { h with diskUsage := du } = collectCPUMetrics h := by
  have hz : findThermalZone { h with diskUsage := du } = findThermalZone h := by
    simp only [findThermalZone, scanThermalZones_diskUsage]
  have ht : getCPUTemperature { h with diskUsage := du } = getCPUTemperature h := by
    simp only [getCPUTemperature, tryThermalPaths_diskUsage, hz]
  have hu : getCPUUsage { h with diskUsage := du } = getCPUUsage h := rfl
  simp only [collectCPUMetrics, ht, hu]

/-! ## The invariant of the collection loop -/

theorem heapUpdate_getElem? {α : Type} (l : List α) (a b : Nat) (f : α → α) :
    (heapUpdate l a f)[b]? = if a = b then (l[b]?).map f else l[b]? := by
  unfold heapUpdate
  by_cases hab : a = b
  · subst hab
    cases hx : l[a]? with
    | none => simp [hx]
    | some x =>
      have hlt : a < l.length := by
        by_contra hge
        rw [List.getElem?_eq_none (by omega)] at hx
        exact Option.noConfusion hx
      simp [hx, List.getElem?_set_self hlt]
  · simp only [hab, if_false]
    split
    · rw [List.getElem?_set_ne hab]
    · rfl

theorem run_snoc {F : Type} [Zero F] [Div F] [IntCast F] (cfg : Config)
    (hs : List (Host F)) (h : Host F) :
    run cfg (hs ++ [h]) = step h (run cfg hs) := by
  simp [run, List.foldl_append]

theorem cycleInv_init {F : Type} [Zero F] [Div F] [IntCast F] (cfg : Config) :
    CycleInv ([] : List (Host F)) (State.init F cfg) := by
  refine ⟨rfl, ?_, ?_, ?_, ?_⟩
  · simp [State.init]
  · simp [State.init]
  · simp [State.init, New, published]
  · intro a snap ha
    simp [State.init] at ha

theorem getElem?_snoc_of_some {α : Type} (l : List α) (x y : α) (i : Nat)
    (h : l[i]? = some y) : (l ++ [x])[i]? = some y := by
  have hi : i < l.length := by
    by_contra hge
    rw [List.getElem?_eq_none (by omega)] at h
    exact Option.noConfusion h
  rw [List.getElem?_append_left hi]
  exact h

theorem getElem?_lt_of_some {α : Type} (l : List α) (y : α) (i : Nat)
    (h : l[i]? = some y) : i < l.length := by
  by_contra hge
  rw [List.getElem?_eq_none (by omega)] at h
  exact Option.noConfusion h

/-- A snapshot that the next statement leaves alone, and whose cycle crosses
no storing statement, keeps what it has stored. -/
theorem stored_snoc {F : Type} [Zero F] [Div F] [IntCast F] (hs : List (Host F))
    (h : Host F) (a : Nat) (snap : SystemMetrics F) (hst : Stored hs a snap)
    (hold : ∀ t, 2 ≤ t → t ≤ 4 → 7 * a + t ≤ hs.length + 1 → 7 * a + t ≤ hs.length) :
    Stored (hs ++ [h]) a snap := by
  obtain ⟨p1, p2, p3⟩ := hst
  simp only [Stored, List.length_append, List.length_singleton]
  refine ⟨fun hle => ?_, fun hle => ?_, fun hle => ?_⟩
  · obtain ⟨g, e1, e2⟩ := p1 (hold 2 (by omega) (by omega) hle)
    exact ⟨g, getElem?_snoc_of_some _ _ _ _ e1, e2⟩
  · obtain ⟨g, e1, e2⟩ := p2 (hold 3 (by omega) (by omega) hle)
    exact ⟨g, getElem?_snoc_of_some _ _ _ _ e1, e2⟩
  · obtain ⟨g, e1, e2⟩ := p3 (hold 4 (by omega) (by omega) hle)
    exact ⟨g, getElem?_snoc_of_some _ _ _ _ e1, e2⟩

/-- The field assignment of statement `t - 1` of a cycle (`t` is 2 for Disk, 3
for Memory, 4 for CPU, 5 for GPUs) keeps the stored results: `f` changes only
the field of that statement, and `hnew` says that the field now holds the
result of the host `h`. -/
theorem stored_update {F : Type} [Zero F] [Div F] [IntCast F] (hs : List (Host F))
    (h : Host F) (a t : Nat) (old : SystemMetrics F) (f : SystemMetrics F → SystemMetrics F)
    (hst : Stored hs a old) (hn : hs.length + 1 = 7 * a + t) (ht : 2 ≤ t ∧ t ≤ 5)
    (hd : t ≠ 2 → (f old).Disk = old.Disk)
    (hm : t ≠ 3 → (f old).Memory = old.Memory)
    (hc : t ≠ 4 → (f old).CPU = old.CPU)
    (hd2 : t = 2 → (f old).Disk = some (collectDiskMetrics h))
    (hm2 : t = 3 → (f old).Memory = some (collectMemoryMetrics h))
    (hc2 : t = 4 → (f old).CPU = some (collectCPUMetrics h)) :
    Stored (hs ++ [h]) a (f old) := by
  obtain ⟨p1, p2, p3⟩ := hst
  have hlast : (hs ++ [h])[hs.length]? = some h := by simp
  simp only [Stored, List.length_append, List.length_singleton]
  refine ⟨fun hle => ?_, fun hle => ?_, fun hle => ?_⟩
  · by_cases h2 : t = 2
    · refine ⟨h, ?_, hd2 h2⟩
      have : 7 * a + 1 = hs.length := by omega
      rw [this]; exact hlast
    · obtain ⟨g, e1, e2⟩ := p1 (by omega)
      exact ⟨g, getElem?_snoc_of_some _ _ _ _ e1, (hd h2).trans e2⟩
  · by_cases h3 : t = 3
    · refine ⟨h, ?_, hm2 h3⟩
      have : 7 * a + 2 = hs.length := by omega
      rw [this]; exact hlast
    · obtain ⟨g, e1, e2⟩ := p2 (by omega)
      exact ⟨g, getElem?_snoc_of_some _ _ _ _ e1, (hm h3).trans e2⟩
  · by_cases h4 : t = 4
    · refine ⟨h, ?_, hc2 h4⟩
      have : 7 * a + 3 = hs.length := by omega
      rw [this]; exact hlast
    · obtain ⟨g, e1, e2⟩ := p3 (by omega)
      exact ⟨g, getElem?_snoc_of_some _ _ _ _ e1, (hc h4).trans e2⟩

/-- The invariant for a state whose heap is that of `s` with the snapshot at
`s.cur` replaced by its image under `f`. -/
theorem stored_heapUpdate {F : Type} [Zero F] [Div F] [IntCast F] (hs : List (Host F))
    (h : Host F) (s : State F) (t : Nat) (f : SystemMetrics F → SystemMetrics F)
    (hcur : s.cur = (hs.length - 1) / 7)
    (hpop : ∀ a snap, s.heap[a]? = some snap → Stored hs a snap)
    (hk : hs.length % 7 + 1 = t) (ht : 2 ≤ t ∧ t ≤ 5)
    (hd : ∀ old, t ≠ 2 → (f old).Disk = old.Disk)
    (hm : ∀ old, t ≠ 3 → (f old).Memory = old.Memory)
    (hc : ∀ old, t ≠ 4 → (f old).CPU = old.CPU)
    (hd2 : ∀ old, t = 2 → (f old).Disk = some (collectDiskMetrics h))
    (hm2 : ∀ old, t = 3 → (f old).Memory = some (collectMemoryMetrics h))
    (hc2 : ∀ old, t = 4 → (f old).CPU = some (collectCPUMetrics h)) :
    ∀ a snap, (heapUpdate s.heap s.cur f)[a]? = some snap → Stored (hs ++ [h]) a snap := by
  intro a snap ha
  rw [heapUpdate_getElem?] at ha
  by_cases hac : s.cur = a
  · simp only [hac, if_true] at ha
    obtain ⟨old, hold, rfl⟩ := Option.map_eq_some'.mp ha
    exact stored_update hs h a t old f (hpop a old hold) (by omega) ht (hd old) (hm old)
      (hc old) (hd2 old) (hm2 old) (hc2 old)
  · simp only [hac, if_false] at ha
    exact stored_snoc hs h a snap (hpop a snap ha) (fun u _ _ _ => by omega)

theorem cycleInv_step {F : Type} [Zero F] [Div F] [IntCast F] (hs : List (Host F))
    (h : Host F) (s : State F) (hinv : CycleInv hs s) :
    CycleInv (hs ++ [h]) (step h s) := by
  obtain ⟨hpc, hlen, hcur, hlat, hpop⟩ := hinv
  obtain ⟨k, hk⟩ : ∃ k, hs.length % 7 = k := ⟨_, rfl⟩
  have hk7 : k < 7 := by omega
  unfold CycleInv
  simp only [List.length_append, List.length_singleton, published] at *
  interval_cases k
  · -- allocation
    have hp : s.pc = .idle := by rw [hpc]; simp [pcAt, hk]
    have hn : (hs.length + 1) % 7 = 1 := by omega
    simp only [step, hp]
    refine ⟨by simp [pcAt, hn], by simp; omega, by simp; omega, ?_, ?_⟩
    · have e : (hs.length + 1 + 1) / 7 = (hs.length + 1) / 7 := by omega
      simp only [e]; exact hlat
    · intro a snap ha
      by_cases hlt : a < s.heap.length
      · rw [List.getElem?_append_left hlt] at ha
        exact stored_snoc hs h a snap (hpop a snap ha) (fun u _ _ _ => by omega)
      · have hlt2 := getElem?_lt_of_some _ _ _ ha
        simp only [List.length_append, List.length_singleton] at hlt2
        simp only [Stored, List.length_append, List.length_singleton]
        refine ⟨fun _ => ?_, fun _ => ?_, fun _ => ?_⟩ <;> exfalso <;> omega
  · have hp : s.pc = .disk := by rw [hpc]; simp [pcAt, hk]
    have hn : (hs.length + 1) % 7 = 2 := by omega
    simp only [step, hp]
    refine ⟨by simp [pcAt, hn], by rw [heapUpdate_length]; omega, by simp; omega, ?_, ?_⟩
    · have e : (hs.length + 1 + 1) / 7 = (hs.length + 1) / 7 := by omega
      simp only [e]; exact hlat
    · exact stored_heapUpdate hs h s 2 _ hcur hpop (by omega) (by omega)
        (fun _ c => absurd rfl c) (fun _ _ => rfl) (fun _ _ => rfl)
        (fun _ _ => rfl) (fun _ c => by omega) (fun _ c => by omega)
  · have hp : s.pc = .memory := by rw [hpc]; simp [pcAt, hk]
    have hn : (hs.length + 1) % 7 = 3 := by omega
    simp only [step, hp]
    refine ⟨by simp [pcAt, hn], by rw [heapUpdate_length]; omega, by simp; omega, ?_, ?_⟩
    · have e : (hs.length + 1 + 1) / 7 = (hs.length + 1) / 7 := by omega
      simp only [e]; exact hlat
    · exact stored_heapUpdate hs h s 3 _ hcur hpop (by omega) (by omega)
        (fun _ _ => rfl) (fun _ c => absurd rfl c) (fun _ _ => rfl)
        (fun _ c => by omega) (fun _ _ => rfl) (fun _ c => by omega)
  · have hp : s.pc = .cpu := by rw [hpc]; simp [pcAt, hk]
    have hn : (hs.length + 1) % 7 = 4 := by omega
    simp only [step, hp]
    refine ⟨by simp [pcAt, hn], by rw [heapUpdate_length]; omega, by simp; omega, ?_, ?_⟩
    · have e : (hs.length + 1 + 1) / 7 = (hs.length + 1) / 7 := by omega
      simp only [e]; exact hlat
    · exact stored_heapUpdate hs h s 4 _ hcur hpop (by omega) (by omega)
        (fun _ _ => rfl) (fun _ _ => rfl) (fun _ c => absurd rfl c)
        (fun _ c => by omega) (fun _ c => by omega) (fun _ _ => rfl)
  · have hp : s.pc = .gpus := by rw [hpc]; simp [pcAt, hk]
    have hn : (hs.length + 1) % 7 = 5 := by omega
    simp only [step, hp]
    refine ⟨by simp [pcAt, hn], by rw [heapUpdate_length]; omega, by simp; omega, ?_, ?_⟩
    · have e : (hs.length + 1 + 1) / 7 = (hs.length + 1) / 7 := by omega
      simp only [e]; exact hlat
    · exact stored_heapUpdate hs h s 5 _ hcur hpop (by omega) (by omega)
        (fun _ _ => rfl) (fun _ _ => rfl) (fun _ _ => rfl)
        (fun _ c => by omega) (fun _ c => by omega) (fun _ c => by omega)
  · have hp : s.pc = .publish := by rw [hpc]; simp [pcAt, hk]
    have hn : (hs.length + 1) % 7 = 6 := by omega
    simp only [step, hp]
    refine ⟨by simp [pcAt, hn], by omega, by omega, ?_, ?_⟩
    · have e : ¬ (hs.length + 1 + 1) / 7 = 0 := by omega
      simp only [e, if_false, Option.some.injEq]; omega
    · intro a snap ha
      have hlt := getElem?_lt_of_some _ _ _ ha
      exact stored_snoc hs h a snap (hpop a snap ha) (fun u _ _ _ => by omega)
  · have hp : s.pc = .send := by rw [hpc]; simp [pcAt, hk]
    have hn : (hs.length + 1) % 7 = 0 := by omega
    simp only [step, hp]
    refine ⟨by simp [pcAt, hn], by omega, by omega, ?_, ?_⟩
    · have e : (hs.length + 1 + 1) / 7 = (hs.length + 1) / 7 := by omega
      simp only [e]; exact hlat
    · intro a snap ha
      have hlt := getElem?_lt_of_some _ _ _ ha
      exact stored_snoc hs h a snap (hpop a snap ha) (fun u _ _ _ => by omega)

theorem cycleInv_run {F : Type} [Zero F] [Div F] [IntCast F] (cfg : Config)
    (hs : List (Host F)) : CycleInv hs (run cfg hs) := by
  induction hs using List.reverseRecOn with
  | nil => exact cycleInv_init cfg
  | append_singleton hs h ih =>
    rw [run_snoc]
    exact cycleInv_step hs h _ ih

/-- No statement of `collectMetrics` writes to a snapshot that has already been
published. -/
theorem step_keeps_published {F : Type} [Zero F] [Div F] [IntCast F] (hs : List (Host F))
    (h : Host F) (s : State F) (hinv : CycleInv hs s) (a : Nat)
    (ha : a + 1 ≤ published hs.length) :
    (step h s).heap[a]? = s.heap[a]? := by
  obtain ⟨hpc, hlen, hcur, -, -⟩ := hinv
  obtain ⟨k, hk⟩ : ∃ k, hs.length % 7 = k := ⟨_, rfl⟩
  have hk7 : k < 7 := by omega
  simp only [published] at ha
  have hne : k = 1 ∨ k = 2 ∨ k = 3 ∨ k = 4 → s.cur ≠ a := by
    intro hcase
    omega
  interval_cases k
  · have hp : s.pc = .idle := by rw [hpc]; simp [pcAt, hk]
    simp only [step, hp]
    exact List.getElem?_append_left (by omega)
  · have hp : s.pc = .disk := by rw [hpc]; simp [pcAt, hk]
    simp only [step, hp]
    exact heapUpdate_getElem?_ne _ _ _ _ (hne (by omega))
  · have hp : s.pc = .memory := by rw [hpc]; simp [pcAt, hk]
    simp only [step, hp]
    exact heapUpdate_getElem?_ne _ _ _ _ (hne (by omega))
  · have hp : s.pc = .cpu := by rw [hpc]; simp [pcAt, hk]
    simp only [step, hp]
    exact heapUpdate_getElem?_ne _ _ _ _ (hne (by omega))
  · have hp : s.pc = .gpus := by rw [hpc]; simp [pcAt, hk]
    simp only [step, hp]
    exact heapUpdate_getElem?_ne _ _ _ _ (hne (by omega))
  · have hp : s.pc = .publish := by rw [hpc]; simp [pcAt, hk]
    simp only [step, hp]
  · have hp : s.pc = .send := by rw [hpc]; simp [pcAt, hk]
    simp only [step, hp]

theorem run_keeps_published {F : Type} [Zero F] [Div F] [IntCast F] (cfg : Config)
    (hs more : List (Host F)) (a : Nat) (ha : a + 1 ≤ published hs.length) :
    deref (run cfg (hs ++ more)) a = deref (run cfg hs) a := by
  induction more using List.reverseRecOn with
  | nil => simp
  | append_singleton more h ih =>
    rw [← List.append_assoc, run_snoc]
    have hmono : a + 1 ≤ published (hs ++ more).length := by
      simp only [published, List.length_append] at ha ⊢
      omega
    have hstep := step_keeps_published (hs ++ more) h _ (cycleInv_run cfg (hs ++ more)) a hmono
    simp only [deref] at ih ⊢
    rw [hstep, ih]

/-! ## Facts about 64-bit arithmetic -/

theorem wrap64_of_inRange (x : Int) (hlo : -9223372036854775808 ≤ x)
    (hhi : x < 9223372036854775808) : wrap64 x = x := by
  unfold wrap64
  norm_num
  omega

theorem wrap64_range (x : Int) :
    -9223372036854775808 ≤ wrap64 x ∧ wrap64 x < 9223372036854775808 := by
  unfold wrap64
  norm_num
  omega

theorem wrap64_congr (x : Int) : (wrap64 x - x) % 18446744073709551616 = 0 := by
  unfold wrap64
  norm_num
  omega

/-! ## Facts about the nvidia-smi line loop -/

/-- What one line adds to the list of entries. -/
theorem nvidiaLines_foldl {F : Type} [Zero F] (pf : String → Except String F)
    (lines : List String) (acc : List (GPUMetrics F)) :
    lines.foldl
        (fun gpus line =>
          if trimSpace line = "" then gpus
          else
            match parseNVIDIALine pf line with
            | some gpu => gpus ++ [gpu]
            | none => gpus)
        acc =
      acc ++ (lines.filter (fun l => decide (trimSpace l ≠ ""))).filterMap
        (parseNVIDIALine pf) := by
  induction lines generalizing acc with
  | nil => simp
  | cons line rest ih =>
    simp only [List.foldl_cons]
    rw [ih]
    by_cases hb : trimSpace line = ""
    · simp [hb]
    · cases hp : parseNVIDIALine pf line with
      | none => simp [hb, hp]
      | some gpu => simp [hb, hp]

theorem nvidiaLines_eq_filterMap {F : Type} [Zero F] (pf : String → Except String F)
    (lines : List String) :
    nvidiaLines pf lines =
      (lines.filter (fun l => decide (trimSpace l ≠ ""))).filterMap (parseNVIDIALine pf) := by
  unfold nvidiaLines
  rw [nvidiaLines_foldl]
  simp

theorem nvidiaLines_append {F : Type} [Zero F] (pf : String → Except String F)
    (xs ys : List String) :
    nvidiaLines pf (xs ++ ys) = nvidiaLines pf xs ++ nvidiaLines pf ys := by
  simp only [nvidiaLines_eq_filterMap, List.filter_append, List.filterMap_append]

/-! ## Claims -/

/-- C1: every line that `parseNVIDIALine` accepts splits at comma-space into
at least four fields, and the entry returned has Type "nvidia", an empty Error,
the Name "NVIDIA GPU <index> (<name>)" made of the trimmed first and second
fields, and as UsagePercent and Temperature the numbers read from the trimmed
third and fourth fields, each replaced by 0 on its own when it does not parse. -/
theorem parseNVIDIALine_entry {F : Type} [Zero F] (pf : String → Except String F)
    (line : String) (e : GPUMetrics F) (h : parseNVIDIALine pf line = some e) :
    ∃ p0 p1 p2 p3 rest, split line ", " = p0 :: p1 :: p2 :: p3 :: rest ∧
      e.Type_ = "nvidia" ∧ e.Error = "" ∧
      e.Name = "NVIDIA GPU " ++ trimSpace p0 ++ " (" ++ trimSpace p1 ++ ")" ∧
      (∀ v, pf (trimSpace p2) = .ok v → e.UsagePercent = v) ∧
      (∀ m, pf (trimSpace p2) = .error m → e.UsagePercent = 0) ∧
      (∀ v, pf (trimSpace p3) = .ok v → e.Temperature = v) ∧
      (∀ m, pf (trimSpace p3) = .error m → e.Temperature = 0) := by
  unfold parseNVIDIALine at h
  by_cases hl : (split line ", ").length < 4
  · simp [hl] at h
  · simp only [hl, if_false, Option.some.injEq] at h
    match hs : split line ", " with
    | [] => simp [hs] at hl
    | [_] => simp [hs] at hl
    | [_, _] => simp [hs] at hl
    | [_, _, _] => simp [hs] at hl
    | p0 :: p1 :: p2 :: p3 :: rest =>
      refine ⟨p0, p1, p2, p3, rest, rfl, ?_⟩
      rw [hs] at h
      subst h
      simp only [List.getD_cons_zero, List.getD_cons_succ]
      refine ⟨?_, ?_, ?_, ?_, ?_, ?_, ?_⟩
      all_goals first
        | trivial
        | (intro v hv; simp [hv, floatOrZero])

/-- Witness for C1: the line "0, Test GPU, 45.5, 62.0" is accepted with usage
45.5 and temperature 62.0, and `parseNVIDIALine_entry` applies to it. -/
theorem parseNVIDIALine_entry_witness :
    parseNVIDIALine decimalFloat "0, Test GPU, 45.5, 62.0" =
        some { Name := "NVIDIA GPU 0 (Test GPU)", Type_ := "nvidia",
               UsagePercent := (45.5 : ℚ), Temperature := (62.0 : ℚ), Error := "" } ∧
      ∃ p0 p1 p2 p3 rest,
        split "0, Test GPU, 45.5, 62.0" ", " = p0 :: p1 :: p2 :: p3 :: rest ∧
        "nvidia" = "nvidia" ∧ "" = "" ∧
        "NVIDIA GPU 0 (Test GPU)" = "NVIDIA GPU " ++ trimSpace p0 ++ " (" ++ trimSpace p1 ++ ")" ∧
        (∀ v, decimalFloat (trimSpace p2) = .ok v → (45.5 : ℚ) = v) ∧
        (∀ m, decimalFloat (trimSpace p2) = .error m → (45.5 : ℚ) = 0) ∧
        (∀ v, decimalFloat (trimSpace p3) = .ok v → (62.0 : ℚ) = v) ∧
        (∀ m, decimalFloat (trimSpace p3) = .error m → (62.0 : ℚ) = 0) := by
  have hs : split "0, Test GPU, 45.5, 62.0" ", " = ["0", "Test GPU", "45.5", "62.0"] := by
    decide
  have t0 : trimSpace "0" = "0" := by decide
  have t1 : trimSpace "Test GPU" = "Test GPU" := by decide
  have t2 : trimSpace "45.5" = "45.5" := by decide
  have t3 : trimSpace "62.0" = "62.0" := by decide
  have f2 : decimalFloat "45.5" = .ok (45.5 : ℚ) := by
    simp [decimalFloat, decimalUnsigned, digitsValue]
    norm_num
  have f3 : decimalFloat "62.0" = .ok (62.0 : ℚ) := by
    simp [decimalFloat, decimalUnsigned, digitsValue]
    norm_num
  have hn : "NVIDIA GPU " ++ "0" ++ " (" ++ "Test GPU" ++ ")" = "NVIDIA GPU 0 (Test GPU)" := by
    decide
  have h : parseNVIDIALine decimalFloat "0, Test GPU, 45.5, 62.0" =
      some { Name := "NVIDIA GPU 0 (Test GPU)", Type_ := "nvidia",
             UsagePercent := (45.5 : ℚ), Temperature := (62.0 : ℚ), Error := "" } := by
    simp only [parseNVIDIALine, hs, List.length_cons, List.length_nil, List.getD_cons_zero,
      List.getD_cons_succ, t0, t1, t2, t3, f2, f3, floatOrZero, hn]
    simp
  exact ⟨h, parseNVIDIALine_entry decimalFloat _ _ h⟩

/-- C2 as stated fails: "0,Test GPU,45.5,62.0" has four fields delimited by the
character ',' and still yields no entry. -/
theorem parseNVIDIALine_comma_fields_counterexample :
    ¬ (parseNVIDIALine decimalFloat "0,Test GPU,45.5,62.0" = none ↔
        (split "0,Test GPU,45.5,62.0" ",").length < 4) := by
  have h1 : parseNVIDIALine decimalFloat "0,Test GPU,45.5,62.0" = none := by
    rw [parseNVIDIALine_eq_none_iff]; decide
  have h2 : ¬ (split "0,Test GPU,45.5,62.0" ",").length < 4 := by decide
  exact fun h => h2 (h.mp h1)

/-- C2, amended: `parseNVIDIALine` returns no entry exactly when the line has
fewer than 4 fields delimited by the two-character separator ", " (comma,
space).  Hence a line with fewer than 4 fields delimited by ',' is dropped, and
every line with 4 or more ", "-delimited fields yields one entry. -/
theorem parseNVIDIALine_none_iff_commaSpace {F : Type} [Zero F]
    (pf : String → Except String F) (line : String) :
    (parseNVIDIALine pf line = none ↔ (split line ", ").length < 4) ∧
      ((split line ",").length < 4 → parseNVIDIALine pf line = none) ∧
      (4 ≤ (split line ", ").length → ∃ e, parseNVIDIALine pf line = some e) := by
  have hiff := parseNVIDIALine_eq_none_iff pf line
  refine ⟨hiff, fun hlt => ?_, fun hge => ?_⟩
  · have := split_commaSpace_length_le line
    exact hiff.mpr (by omega)
  · cases hp : parseNVIDIALine pf line with
    | some e => exact ⟨e, rfl⟩
    | none => exact absurd (hiff.mp hp) (by omega)

/-- C3: when the thermal file (the path itself, or the first match of a
wildcard path) is readable and its content, trimmed, is the decimal
representation of the integer `n`, which the number parser reads as `n`,
`readThermalFile` succeeds and returns `n / 1000`. -/
theorem readThermalFile_millidegrees {F : Type} [Div F] [IntCast F] (h : Host F)
    (path p data : String) (n : Int)
    (hp : (contains path "*" = false ∧ p = path) ∨
      (contains path "*" = true ∧ ∃ ms, h.glob path = .ok (p :: ms)))
    (hr : h.readFile p = .ok data)
    (ht : trimSpace data = toString n)
    (hpf : h.parseFloat (toString n) = .ok (n : F)) :
    readThermalFile h path = .ok ((n : F) / ((1000 : Int) : F)) := by
  unfold readThermalFile
  rcases hp with ⟨hc, rfl⟩ | ⟨hc, ms, hg⟩
  · simp [hc, hr, ht, hpf]
  · simp [hc, hg, hr, ht, hpf]

/-- Witness for C3: the content "45000" (with its final newline) yields 45.0. -/
theorem readThermalFile_millidegrees_witness :
    readThermalFile sampleHost "/sys/class/thermal/thermal_zone1/temp" = .ok (45 : ℚ) ∧
      readThermalFile sampleHost "/sys/class/thermal/thermal_zone1/temp" =
        .ok (((45000 : Int) : ℚ) / ((1000 : Int) : ℚ)) := by
  refine ⟨sampleHost_zone1, ?_⟩
  exact readThermalFile_millidegrees sampleHost "/sys/class/thermal/thermal_zone1/temp"
    "/sys/class/thermal/thermal_zone1/temp" "45000\n" 45000
    (Or.inl ⟨by decide, rfl⟩) (by simp [sampleHost]) (by decide)
    (by
      have hts : toString (45000 : Int) = "45000" := by decide
      rw [hts]
      simp [sampleHost, decimalFloat, decimalUnsigned, digitsValue])

/-- C4: `getCPUTemperature` goes through the fixed candidate paths in their
declared order and returns the reading of the first one that `readThermalFile`
reads; when none is readable the result is that of the thermal-zone scan, or
the error "CPU temperature not available".  A candidate whose trimmed content
the number parser refuses is a failure of `readThermalFile` for that file, so
the next candidate is tried like after any other read failure. -/
theorem getCPUTemperature_first_readable {F : Type} [Div F] [IntCast F] (h : Host F) :
    (∀ pre p post t, thermalPaths = pre ++ p :: post →
        (∀ q ∈ pre, ∃ e, readThermalFile h q = .error e) →
        readThermalFile h p = .ok t → getCPUTemperature h = .ok t) ∧
      ((∀ q ∈ thermalPaths, ∃ e, readThermalFile h q = .error e) →
        getCPUTemperature h =
          match findThermalZone h with
          | .ok t => .ok t
          | .error _ => .error "CPU temperature not available") ∧
      (∀ path p data e,
        ((contains path "*" = false ∧ p = path) ∨
          (contains path "*" = true ∧ ∃ ms, h.glob path = .ok (p :: ms))) →
        h.readFile p = .ok data → h.parseFloat (trimSpace data) = .error e →
        readThermalFile h path = .error e) := by
  refine ⟨?_, ?_, ?_⟩
  · intro pre p post t hsplit hpre hp
    unfold getCPUTemperature
    rw [hsplit, tryThermalPaths_first h pre p post t hpre hp]
  · intro hall
    unfold getCPUTemperature
    rw [tryThermalPaths_none h thermalPaths hall]
  · intro path p data e hp hr hpf
    unfold readThermalFile
    rcases hp with ⟨hc, rfl⟩ | ⟨hc, ms, hg⟩
    · simp [hc, hr, hpf]
    · simp [hc, hg, hr, hpf]

/-- Witness for C4: the first candidate holds "not-a-number", the second holds
"45000"; the probe skips the first and returns 45 from the second. -/
theorem getCPUTemperature_first_readable_witness :
    (∃ e, readThermalFile sampleHost "/sys/class/thermal/thermal_zone0/temp" = .error e) ∧
      getCPUTemperature sampleHost = .ok (45 : ℚ) :=
  ⟨⟨_, sampleHost_zone0⟩,
    (getCPUTemperature_first_readable sampleHost).1
      ["/sys/class/thermal/thermal_zone0/temp"] "/sys/class/thermal/thermal_zone1/temp"
      [ "/sys/devices/platform/coretemp.0/hwmon/hwmon*/temp1_input",
        "/sys/devices/virtual/thermal/thermal_zone0/temp" ] 45 rfl
      (fun q hq => by
        rw [List.mem_singleton] at hq
        subst hq
        exact ⟨_, sampleHost_zone0⟩)
      sampleHost_zone1⟩

/-- C5: when CPU usage sampling succeeds, `collectCPUMetrics` returns a result
with an empty Error and the sampled usage as UsagePercent, whatever the
temperature probe does: a failed probe leaves Temperature at 0, a successful
one stores its reading. -/
theorem collectCPUMetrics_usage_ok {F : Type} [Zero F] [Div F] [IntCast F] (h : Host F)
    (usage : F) (hu : getCPUUsage h = .ok usage) :
    (collectCPUMetrics h).Error = "" ∧ (collectCPUMetrics h).UsagePercent = usage ∧
      (∀ e, getCPUTemperature h = .error e → (collectCPUMetrics h).Temperature = 0) ∧
      (∀ t, getCPUTemperature h = .ok t → (collectCPUMetrics h).Temperature = t) := by
  unfold collectCPUMetrics
  rw [hu]
  cases ht : getCPUTemperature h with
  | error e => simp
  | ok t => simp

/-- Witness for C5: on a host with no thermal file at all the temperature
probe fails, and the usage 10 is reported with Temperature 0 and no error. -/
theorem collectCPUMetrics_usage_ok_witness :
    getCPUUsage bareHost = .ok (10 : ℚ) ∧
      getCPUTemperature bareHost = .error "CPU temperature not available" ∧
      (collectCPUMetrics bareHost).Error = "" ∧
      (collectCPUMetrics bareHost).UsagePercent = (10 : ℚ) ∧
      (collectCPUMetrics bareHost).Temperature = (0 : ℚ) :=
  have hu : getCPUUsage bareHost = .ok (10 : ℚ) := rfl
  ⟨hu, bareHost_no_temperature, (collectCPUMetrics_usage_ok bareHost 10 hu).1,
    (collectCPUMetrics_usage_ok bareHost 10 hu).2.1,
    (collectCPUMetrics_usage_ok bareHost 10 hu).2.2.1 _ bareHost_no_temperature⟩

/-- C6: a collection cycle whose disk probe fails still completes and
publishes a new snapshot; its Disk result carries the error string with zero
value fields, its Memory and CPU results are those of the memory and CPU
probes, without error when these probes succeed, and they are the same
whatever the outcome of the disk probe. -/
theorem collectMetrics_disk_failure {F : Type} [Zero F] [Div F] [IntCast F] (h : Host F)
    (s : State F) (err : String) (hpc : s.pc = .idle)
    (hd : getDiskUsage h "/" = .error err) :
    (collectMetrics h s).pc = .idle ∧
      GetMetrics (collectMetrics h s) = some s.heap.length ∧
      ∃ snap, deref (collectMetrics h s) s.heap.length = some snap ∧
        snap.Disk = some { Total := 0, Used := 0, UsedPercent := 0, Error := err } ∧
        snap.Memory = some (collectMemoryMetrics h) ∧
        snap.CPU = some (collectCPUMetrics h) ∧
        (∀ u, getMemoryUsage h = .ok u → (collectMemoryMetrics h).Error = "") ∧
        (∀ u, getCPUUsage h = .ok u → (collectCPUMetrics h).Error = "") ∧
        ∀ du, ∃ snap2,
          deref (collectMetrics { h with diskUsage := du } s) s.heap.length = some snap2 ∧
          snap2.Memory = snap.Memory ∧ snap2.CPU = snap.CPU := by
  refine ⟨?_, ?_, cycleSnapshot h, ?_, ?_, rfl, rfl, ?_, ?_, ?_⟩
  · rw [collectMetrics_idle h s hpc]
  · rw [collectMetrics_idle h s hpc]; rfl
  · rw [collectMetrics_idle h s hpc]; simp [deref]
  · simp [cycleSnapshot, collectDiskMetrics, hd]
  · intro u hu
    simp [collectMemoryMetrics, hu]
  · intro u hu
    unfold collectCPUMetrics
    rw [hu]
    cases getCPUTemperature h <;> rfl
  · intro du
    refine ⟨cycleSnapshot { h with diskUsage := du }, ?_, rfl, ?_⟩
    · rw [collectMetrics_idle _ s hpc]; simp [deref]
    · simp only [cycleSnapshot, collectCPUMetrics_diskUsage]

/-- Witness for C6: on the sample host the disk probe fails, and the first
cycle publishes a snapshot with the disk error and error-free memory and CPU
results. -/
theorem collectMetrics_disk_failure_witness :
    getDiskUsage sampleHost "/" = .error "no such file or directory" ∧
      GetMetrics (collectMetrics sampleHost (State.init ℚ Default)) = some 0 ∧
      ∃ snap, deref (collectMetrics sampleHost (State.init ℚ Default)) 0 = some snap ∧
        snap.Disk =
          some { Total := 0, Used := 0, UsedPercent := 0, Error := "no such file or directory" } ∧
        snap.Memory = some { Total := 16000, Used := 4000, UsedPercent := 25, Error := "" } ∧
        (∃ c, snap.CPU = some c ∧ c.Error = "" ∧ c.UsagePercent = 10) := by
  have hd : getDiskUsage sampleHost "/" = .error "no such file or directory" := rfl
  obtain ⟨_, hg, snap, h1, h2, h3, h4, _, h6, _⟩ :=
    collectMetrics_disk_failure sampleHost (State.init ℚ Default) "no such file or directory"
      rfl hd
  refine ⟨hd, hg, snap, h1, h2, ?_, ?_⟩
  · rw [h3]; rfl
  · exact ⟨_, h4, h6 10 rfl, by
      rw [collectCPUMetrics_of_usage sampleHost 10 rfl]⟩

/-- C7: in the state reached from `New` after any number of statements of
`collectMetrics`, `GetMetrics` returns nil exactly while no cycle has published,
and otherwise the pointer to the snapshot of the last cycle that has published,
whose Disk, Memory and CPU fields hold the results collected by that cycle.  A
published snapshot is the same at every later state, and a later cycle
publishes a snapshot at a new address. -/
theorem getMetrics_reachable {F : Type} [Zero F] [Div F] [IntCast F] (cfg : Config)
    (hs : List (Host F)) :
    (GetMetrics (run cfg hs) = none ↔ published hs.length = 0) ∧
      (∀ a, GetMetrics (run cfg hs) = some a →
        a + 1 = published hs.length ∧
        ∃ snap h1 h2 h3, deref (run cfg hs) a = some snap ∧
          hs[7 * a + 1]? = some h1 ∧ snap.Disk = some (collectDiskMetrics h1) ∧
          hs[7 * a + 2]? = some h2 ∧ snap.Memory = some (collectMemoryMetrics h2) ∧
          hs[7 * a + 3]? = some h3 ∧ snap.CPU = some (collectCPUMetrics h3)) ∧
      (∀ a more, a + 1 ≤ published hs.length →
        deref (run cfg (hs ++ more)) a = deref (run cfg hs) a) ∧
      (∀ more a b, published hs.length < published (hs ++ more).length →
        GetMetrics (run cfg hs) = some a → GetMetrics (run cfg (hs ++ more)) = some b →
        a < b) := by
  have hinv := cycleInv_run cfg hs
  obtain ⟨-, hlen, -, hlat, hpop⟩ := hinv
  refine ⟨?_, ?_, ?_, ?_⟩
  · simp only [GetMetrics, hlat]
    by_cases hz : published hs.length = 0 <;> simp [hz]
  · intro a ha
    simp only [GetMetrics, hlat] at ha
    by_cases hz : published hs.length = 0
    · simp [hz] at ha
    · simp only [hz, if_false, Option.some.injEq] at ha
      have hp : a + 1 = published hs.length := by omega
      have hp2 := hp
      simp only [published] at hp2
      have hlt : a < (run cfg hs).heap.length := by omega
      have hget : (run cfg hs).heap[a]? = some ((run cfg hs).heap[a]) :=
        List.getElem?_eq_getElem hlt
      obtain ⟨p1, p2, p3⟩ := hpop a _ hget
      obtain ⟨h1, e1, d1⟩ := p1 (by omega)
      obtain ⟨h2, e2, d2⟩ := p2 (by omega)
      obtain ⟨h3, e3, d3⟩ := p3 (by omega)
      exact ⟨hp, _, h1, h2, h3, hget, e1, d1, e2, d2, e3, d3⟩
  · intro a more ha
    exact run_keeps_published cfg hs more a ha
  · intro more a b hlt ha hb
    obtain ⟨-, -, -, hlat2, -⟩ := cycleInv_run cfg (hs ++ more)
    simp only [GetMetrics, hlat] at ha
    simp only [GetMetrics, hlat2] at hb
    by_cases hz : published hs.length = 0
    · simp [hz] at ha
    · by_cases hz2 : published (hs ++ more).length = 0
      · omega
      · simp only [hz, if_false, Option.some.injEq] at ha
        simp only [hz2, if_false, Option.some.injEq] at hb
        omega

/-- Witness for C7: with the sample host at every statement, `GetMetrics` is
nil after five statements and points to the first snapshot after six. -/
theorem getMetrics_reachable_witness :
    GetMetrics (run Default (List.replicate 5 sampleHost)) = none ∧
      ∃ snap, GetMetrics (run Default (List.replicate 6 sampleHost)) = some 0 ∧
        deref (run Default (List.replicate 6 sampleHost)) 0 = some snap ∧
        snap.Disk = some (collectDiskMetrics sampleHost) := by
  have h5 := (getMetrics_reachable Default (List.replicate 5 sampleHost)).1
  have h6 := (getMetrics_reachable Default (List.replicate 6 sampleHost)).2.1 0 rfl
  obtain ⟨-, snap, h1, h2, h3, hd, e1, d1, -⟩ := h6
  refine ⟨h5.mpr (by decide), snap, rfl, hd, ?_⟩
  have : h1 = sampleHost := by
    simp [List.replicate] at e1
    exact e1.symm
  rw [d1, this]

/-- C8 as stated fails: with the interval 0 the ticker constructor panics, so
`Start` fails; nothing clamps the interval. -/
theorem Start_zero_interval_counterexample :
    GetUpdateIntervalSeconds (State.init ℚ zeroConfig).m.config ≤ 0 ∧
      Start sampleHost (State.init ℚ zeroConfig) [] =
        .error "non-positive interval for NewTicker" := by
  constructor
  · decide
  · have hd : mulInt (GetUpdateIntervalSeconds (State.init ℚ zeroConfig).m.config) 1000000000 = 0 := by
      decide
    simp only [Start, hd, NewTicker]
    rfl

/-- C8, amended: `Start` never drives its loop with a non-positive period,
because the ticker constructor panics on such a period before any collection
runs: for a resolved interval from -9223372036 to 0 seconds (the values whose
period in nanoseconds does not wrap around) `Start` fails with the panic
"non-positive interval for NewTicker".  The interval is never clamped. -/
theorem Start_nonpositive_interval {F : Type} [Zero F] [Div F] [IntCast F] (h0 : Host F)
    (s : State F) (events : List (Event F))
    (hle : GetUpdateIntervalSeconds s.m.config ≤ 0) :
    (∀ period s2, Start h0 s events = .ok (period, s2) → 0 < period) ∧
      (-9223372036 ≤ GetUpdateIntervalSeconds s.m.config →
        Start h0 s events = .error "non-positive interval for NewTicker") := by
  constructor
  · intro period s2 hs
    unfold Start NewTicker at hs
    split at hs
    · exact Except.noConfusion hs
    · rename_i p hp
      split at hp
      · exact Except.noConfusion hp
      · rename_i hpos
        injection hp with hp
        injection hs with hs
        injection hs with hs1 hs2
        subst hs1
        subst hp
        omega
  · intro hlo
    have hw : mulInt (GetUpdateIntervalSeconds s.m.config) 1000000000 =
        GetUpdateIntervalSeconds s.m.config * 1000000000 :=
      wrap64_of_inRange _ (by omega) (by omega)
    have hnp : mulInt (GetUpdateIntervalSeconds s.m.config) 1000000000 ≤ 0 := by
      rw [hw]; omega
    simp only [Start, NewTicker, hnp, if_true]

/-- Witness for C8: the interval 0. -/
theorem Start_nonpositive_interval_witness :
    GetUpdateIntervalSeconds (State.init ℚ zeroConfig).m.config ≤ 0 ∧
      Start sampleHost (State.init ℚ zeroConfig) [.tick sampleHost] =
        .error "non-positive interval for NewTicker" :=
  ⟨by decide,
    (Start_nonpositive_interval sampleHost (State.init ℚ zeroConfig) [.tick sampleHost]
      (by decide)).2 (by decide)⟩

/-- C9: `GetUpdateIntervalSeconds` returns `UpdateInterval * 60`, the product of
Go `int` arithmetic, when TimeUnit is exactly "minutes", and UpdateInterval
unchanged for every other TimeUnit.  The `int` product is the exact product
whenever that fits the 64-bit word, and in general the value of the word range
congruent to it modulo 2^64. -/
theorem GetUpdateIntervalSeconds_spec (c : Config) :
    (c.TimeUnit = "minutes" →
        GetUpdateIntervalSeconds c = mulInt c.UpdateInterval 60 ∧
        (-9223372036854775808 ≤ c.UpdateInterval * 60 →
          c.UpdateInterval * 60 < 9223372036854775808 →
          GetUpdateIntervalSeconds c = c.UpdateInterval * 60) ∧
        (GetUpdateIntervalSeconds c - c.UpdateInterval * 60) % 18446744073709551616 = 0 ∧
        -9223372036854775808 ≤ GetUpdateIntervalSeconds c ∧
        GetUpdateIntervalSeconds c < 9223372036854775808) ∧
      (c.TimeUnit ≠ "minutes" → GetUpdateIntervalSeconds c = c.UpdateInterval) := by
  constructor
  · intro hm
    have e : GetUpdateIntervalSeconds c = wrap64 (c.UpdateInterval * 60) := by
      simp [GetUpdateIntervalSeconds, hm, mulInt]
    refine ⟨by rw [e]; rfl, fun hlo hhi => ?_, ?_, ?_, ?_⟩
    · rw [e]; exact wrap64_of_inRange _ hlo hhi
    · rw [e]; exact wrap64_congr _
    · rw [e]; exact (wrap64_range _).1
    · rw [e]; exact (wrap64_range _).2
  · intro hm
    simp [GetUpdateIntervalSeconds, hm]

/-- Witness for C9: 2 minutes are 120 seconds, 5 seconds stay 5, and a unit
spelled "Minutes" is not the unit "minutes". -/
theorem GetUpdateIntervalSeconds_spec_witness :
    GetUpdateIntervalSeconds
        { UpdateInterval := 2, TimeUnit := "minutes", TemperatureUnit := "celsius" } = 120 ∧
      GetUpdateIntervalSeconds Default = 5 ∧
      GetUpdateIntervalSeconds
        { UpdateInterval := 2, TimeUnit := "Minutes", TemperatureUnit := "celsius" } = 2 :=
  ⟨((GetUpdateIntervalSeconds_spec
        { UpdateInterval := 2, TimeUnit := "minutes", TemperatureUnit := "celsius" }).1
      rfl).2.1 (by decide) (by decide),
    (GetUpdateIntervalSeconds_spec Default).2 (by decide),
    (GetUpdateIntervalSeconds_spec
        { UpdateInterval := 2, TimeUnit := "Minutes", TemperatureUnit := "celsius" }).2
      (by decide)⟩

/-- C10: `CollectAllGPUMetrics` returns the NVIDIA entries, then the AMD
entries, then the integrated entry when there is one, each group as its
collector returned it and nothing else; when none of nvidia-smi, radeontop and
lspci is on the path the result is the empty list. -/
theorem CollectAllGPUMetrics_concat {F : Type} [Zero F] (h : Host F) :
    CollectAllGPUMetrics h =
        collectNVIDIAGPUs h ++ collectAMDGPUs h ++ (collectIntegratedGPU h).toList ∧
      (h.lookPath "nvidia-smi" = false → h.lookPath "radeontop" = false →
        h.lookPath "lspci" = false → CollectAllGPUMetrics h = []) := by
  have hcat : CollectAllGPUMetrics h =
      collectNVIDIAGPUs h ++ collectAMDGPUs h ++ (collectIntegratedGPU h).toList := by
    unfold CollectAllGPUMetrics
    cases collectIntegratedGPU h <;> simp
  refine ⟨hcat, fun hn ha hi => ?_⟩
  rw [hcat]
  simp [collectNVIDIAGPUs, collectAMDGPUs, collectIntegratedGPU, commandExists, hn, ha, hi]

/-- Witness for C10: the sample host has no vendor tool and gets no entry. -/
theorem CollectAllGPUMetrics_concat_witness : CollectAllGPUMetrics sampleHost = [] :=
  (CollectAllGPUMetrics_concat sampleHost).2 rfl rfl rfl

/-- C13: the entries that the line loop of `collectNVIDIAGPUs` produces for an
output text are the successful `parseNVIDIALine` results of the non-blank lines
of the trimmed text, in line order.  A line that does not parse adds nothing:
the entries are those of the lines before it followed by those of the lines
after it.  With nvidia-smi on the path and a successful run these entries are
the result of `collectNVIDIAGPUs`. -/
theorem nvidiaLines_exact {F : Type} [Zero F] (pf : String → Except String F)
    (output : String) :
    nvidiaLines pf (split (trimSpace output) "\n") =
        ((split (trimSpace output) "\n").filter (fun l => decide (trimSpace l ≠ ""))).filterMap
          (parseNVIDIALine pf) ∧
      (∀ pre bad post, split (trimSpace output) "\n" = pre ++ bad :: post →
        parseNVIDIALine pf bad = none →
        nvidiaLines pf (split (trimSpace output) "\n") =
          nvidiaLines pf pre ++ nvidiaLines pf post) ∧
      (∀ h : Host F, h.parseFloat = pf → h.lookPath "nvidia-smi" = true →
        h.output "nvidia-smi"
            ["--query-gpu=index,name,utilization.gpu,temperature.gpu",
             "--format=csv,noheader,nounits"] = .ok output →
        collectNVIDIAGPUs h = nvidiaLines pf (split (trimSpace output) "\n")) := by
  refine ⟨nvidiaLines_eq_filterMap pf _, ?_, ?_⟩
  · intro pre bad post hsplit hbad
    rw [hsplit, nvidiaLines_append]
    have hone : nvidiaLines pf (bad :: post) = nvidiaLines pf post := by
      simp only [nvidiaLines_eq_filterMap, List.filter_cons]
      by_cases hb : trimSpace bad = ""
      · simp [hb]
      · simp [hb, hbad]
    rw [hone]
  · intro h hpf hpath hout
    simp [collectNVIDIAGPUs, commandExists, hpath, hout, hpf]

/-- Witness for C13: a line with two fields between two valid lines; the two
valid lines give their entries, in order. -/
theorem nvidiaLines_exact_witness :
    split (trimSpace "0, Test GPU, 45.5, 62.0\nbad, line\n1, Other GPU, 10, 50\n") "\n" =
        ["0, Test GPU, 45.5, 62.0"] ++ "bad, line" :: ["1, Other GPU, 10, 50"] ∧
      parseNVIDIALine decimalFloat "bad, line" = none ∧
      collectNVIDIAGPUs nvidiaHost =
        nvidiaLines decimalFloat ["0, Test GPU, 45.5, 62.0"] ++
          nvidiaLines decimalFloat ["1, Other GPU, 10, 50"] := by
  have hs : split (trimSpace "0, Test GPU, 45.5, 62.0\nbad, line\n1, Other GPU, 10, 50\n") "\n" =
      ["0, Test GPU, 45.5, 62.0"] ++ "bad, line" :: ["1, Other GPU, 10, 50"] := by decide
  have hbad : parseNVIDIALine decimalFloat "bad, line" = none := by
    rw [parseNVIDIALine_eq_none_iff]; decide
  have hall := nvidiaLines_exact decimalFloat
    "0, Test GPU, 45.5, 62.0\nbad, line\n1, Other GPU, 10, 50\n"
  refine ⟨hs, hbad, ?_⟩
  rw [hall.2.2 nvidiaHost rfl (by simp [nvidiaHost]) (by simp [nvidiaHost])]
  exact hall.2.1 _ _ _ hs hbad

/-- C11 as stated fails: the line "gpu usage: 50%" contains the marker "gpu"
and a percent sign, and no entry is returned, because the pattern wants white
space and then the number right after the marker. -/
theorem parseRadeontopOutput_marker_counterexample :
    (∃ line ∈ split "gpu usage: 50%" "\n",
        contains line "gpu" = true ∧ contains line "%" = true) ∧
      parseRadeontopOutput decimalFloat "gpu usage: 50%" = none := by
  constructor
  · exact ⟨"gpu usage: 50%", by decide, by decide, by decide⟩
  · have hs : split "gpu usage: 50%" "\n" = ["gpu usage: 50%"] := by decide
    have hf : findUsage "gpu usage: 50%".toList = none := by decide
    rw [parseRadeontopOutput, hs, radeontopLines_cons,
      lineUsage_of_none decimalFloat "gpu usage: 50%" hf]
    rfl

/-- C11, amended: `parseRadeontopOutput` returns at most one entry.  It returns
an entry exactly when some line has a match of the pattern
`gpu\s+(\d+\.?\d*)%` whose captured number the parser accepts; the entry then
has Type "amd", an empty Error, Temperature 0, and as UsagePercent the number
captured by the leftmost match on the first such line, a line that contains
both "gpu" and a percent sign.  When no line contains both it returns no
entry. -/
theorem parseRadeontopOutput_match {F : Type} [Zero F] (pf : String → Except String F)
    (output : String) :
    parseRadeontopOutput pf output =
        ((split output "\n").findSome? (lineUsage pf)).map amdEntry ∧
      (parseRadeontopOutput pf output).toList.length ≤ 1 ∧
      (∀ e, parseRadeontopOutput pf output = some e →
        e.Type_ = "amd" ∧ e.Error = "" ∧ e.Temperature = 0 ∧
        ∃ pre line post g, split output "\n" = pre ++ line :: post ∧
          (∀ l ∈ pre, lineUsage pf l = none) ∧
          contains line "gpu" = true ∧ contains line "%" = true ∧
          findUsage line.toList = some g ∧ pf (String.mk g) = .ok e.UsagePercent) ∧
      ((∀ line ∈ split output "\n",
          ¬ (contains line "gpu" = true ∧ contains line "%" = true)) →
        parseRadeontopOutput pf output = none) := by
  refine ⟨radeontopLines_eq_findSome pf _, ?_, ?_, ?_⟩
  · cases parseRadeontopOutput pf output <;> simp
  · intro e he
    obtain ⟨pre, line, post, g, e1, e2, e3, e4, e5⟩ := radeontopLines_some pf _ e he
    obtain ⟨c1, c2⟩ := findUsage_contains line g e3
    refine ⟨?_, ?_, ?_, pre, line, post, g, e1, e2, c1, c2, e3, e4⟩
    · rw [e5]; rfl
    · rw [e5]; rfl
    · rw [e5]; rfl
  · intro hall
    cases hp : parseRadeontopOutput pf output with
    | none => rfl
    | some e =>
      obtain ⟨pre, line, post, g, e1, -, e3, -, -⟩ := radeontopLines_some pf _ e hp
      have hmem : line ∈ split output "\n" := by
        rw [e1]; simp
      exact absurd (findUsage_contains line g e3) (hall line hmem)

/-- Witness for C11: a dump of radeontop with the sample "gpu 4.17%". -/
theorem parseRadeontopOutput_match_witness :
    parseRadeontopOutput decimalFloat radeontopDump = some (amdEntry (4.17 : ℚ)) := by
  have hs : split radeontopDump "\n" =
      ["Dumping to -, line limit 1.",
       "1700000000.1: bus 03, gpu 4.17%, ee 0.00%, vgt 0.00%", ""] := by decide
  have h0 : findUsage "Dumping to -, line limit 1.".toList = none := by decide
  have h1 : findUsage "1700000000.1: bus 03, gpu 4.17%, ee 0.00%, vgt 0.00%".toList =
      some "4.17".toList := by decide
  have hf : decimalFloat "4.17" = .ok (4.17 : ℚ) := by
    simp [decimalFloat, decimalUnsigned, digitsValue]
    norm_num
  have l0 := lineUsage_of_none decimalFloat "Dumping to -, line limit 1." h0
  have l1 := lineUsage_of_ok decimalFloat
    "1700000000.1: bus 03, gpu 4.17%, ee 0.00%, vgt 0.00%" "4.17".toList (4.17 : ℚ) h1 hf
  rw [(parseRadeontopOutput_match decimalFloat radeontopDump).1, hs]
  simp only [List.findSome?, l0, l1, Option.map]

/-- C12 as stated fails: on a listing with an Intel network controller and an
NVIDIA graphics card no device is a VGA device of the vendors Intel or AMD, and
the placeholder entry is returned all the same. -/
theorem collectIntegratedGPU_device_counterexample :
    mentionsIntegratedVGADevice lspciListing = false ∧
      collectIntegratedGPU lspciHost = some (integratedPlaceholder ℚ) := by
  constructor
  · decide
  · have h1 : contains lspciListing "VGA" = true := by decide
    have h2 : contains lspciListing "Intel" = true := by decide
    simp [collectIntegratedGPU, commandExists, lspciHost, h1, h2, integratedPlaceholder]

/-- C12, amended: for every lspci output text, `collectIntegratedGPU` returns
the single placeholder entry (Type "integrated", UsagePercent 0, the "not fully
implemented" Error) if and only if the text contains "VGA" somewhere and
contains "Intel" or "AMD" somewhere, not necessarily for the same device; for
every other output it returns no entry.  In particular a listing that mentions
a VGA device of one of these vendors gets the placeholder. -/
theorem collectIntegratedGPU_text {F : Type} [Zero F] (h : Host F) (output : String)
    (hpath : h.lookPath "lspci" = true) (hout : h.output "lspci" ["-v"] = .ok output) :
    (collectIntegratedGPU h = some (integratedPlaceholder F) ↔
        (contains output "VGA" = true ∧
          (contains output "Intel" = true ∨ contains output "AMD" = true))) ∧
      (¬ (contains output "VGA" = true ∧
          (contains output "Intel" = true ∨ contains output "AMD" = true)) →
        collectIntegratedGPU h = none) ∧
      (mentionsIntegratedVGADevice output = true →
        collectIntegratedGPU h = some (integratedPlaceholder F)) ∧
      (integratedPlaceholder F).Type_ = "integrated" ∧
      (integratedPlaceholder F).UsagePercent = 0 ∧
      (integratedPlaceholder F).Error ≠ "" := by
  have hiff : collectIntegratedGPU h = some (integratedPlaceholder F) ↔
      (contains output "VGA" = true ∧
        (contains output "Intel" = true ∨ contains output "AMD" = true)) := by
    by_cases hc : contains output "VGA" = true ∧
        (contains output "Intel" = true ∨ contains output "AMD" = true)
    · simp only [hc, iff_true]
      rcases hc with ⟨hv, hi | ha⟩
      · simp [collectIntegratedGPU, commandExists, hpath, hout, hv, hi, integratedPlaceholder]
      · simp [collectIntegratedGPU, commandExists, hpath, hout, hv, ha, integratedPlaceholder]
    · simp only [hc, iff_false]
      have hn : (contains output "VGA" &&
          (contains output "Intel" || contains output "AMD")) = false := by
        simpa using hc
      simp [collectIntegratedGPU, commandExists, hpath, hout, hn]
  refine ⟨hiff, fun hc => ?_, fun hm => ?_, rfl, rfl, by simp [integratedPlaceholder]⟩
  · have hn : (contains output "VGA" &&
        (contains output "Intel" || contains output "AMD")) = false := by
      simpa using hc
    simp [collectIntegratedGPU, commandExists, hpath, hout, hn]
  · apply hiff.mpr
    simp only [mentionsIntegratedVGADevice, List.any_eq_true, Bool.and_eq_true,
      Bool.or_eq_true] at hm
    obtain ⟨line, hl, hv, hia⟩ := hm
    refine ⟨contains_of_mem_split _ _ _ _ hl hv, ?_⟩
    rcases hia with hi | ha
    · exact Or.inl (contains_of_mem_split _ _ _ _ hl hi)
    · exact Or.inr (contains_of_mem_split _ _ _ _ hl ha)

/-- Witness for C12: the listing of `lspciHost`. -/
theorem collectIntegratedGPU_text_witness :
    collectIntegratedGPU lspciHost = some (integratedPlaceholder ℚ) ↔
      (contains lspciListing "VGA" = true ∧
        (contains lspciListing "Intel" = true ∨ contains lspciListing "AMD" = true)) :=
  (collectIntegratedGPU_text lspciHost lspciListing (by simp [lspciHost])
    (by simp [lspciHost])).1

/-- C14: for every enumeration of the thermal directory, `findThermalZone`
returns the temperature of the first thermal zone, in enumeration order, whose
temp file is readable and numeric and whose type label contains one of "cpu",
"x86", "core" as a case-insensitive substring, and fails with "no CPU thermal
zone found" when no zone qualifies.  The zone selected always has such a
label: a zone whose label contains none of the keywords is never selected. -/
theorem findThermalZone_first_cpu_zone {F : Type} [Div F] [IntCast F] (h : Host F)
    (entries : List String) (hdir : h.readDir thermalDir = .ok entries) :
    (∀ pre name post t, entries = pre ++ name :: post →
        (∀ z ∈ pre, zoneReading h z = none) → zoneReading h name = some t →
        findThermalZone h = .ok t) ∧
      ((∀ z ∈ entries, zoneReading h z = none) →
        findThermalZone h = .error "no CPU thermal zone found") ∧
      (∀ t, findThermalZone h = .ok t →
        ∃ name typeData, name ∈ entries ∧ hasPrefixStr name "thermal_zone" = true ∧
          readThermalFile h (pathJoin thermalDir name "temp") = .ok t ∧
          h.readFile (pathJoin thermalDir name "type") = .ok typeData ∧
          isCPULabel (trimSpace typeData) = true) ∧
      (∀ name typeData, h.readFile (pathJoin thermalDir name "type") = .ok typeData →
        isCPULabel (trimSpace typeData) = false → zoneReading h name = none) := by
  have hfind : findThermalZone h =
      match entries.findSome? (zoneReading h) with
      | some temp => .ok temp
      | none => .error "no CPU thermal zone found" := by
    unfold findThermalZone
    rw [hdir]
    exact scanThermalZones_eq_findSome h entries
  refine ⟨?_, ?_, ?_, ?_⟩
  · intro pre name post t hsplit hpre hname
    rw [hfind, hsplit, findSome?_first (zoneReading h) pre name post t hpre hname]
  · intro hall
    rw [hfind, findSome?_none_of_all (zoneReading h) entries hall]
  · intro t ht
    rw [hfind] at ht
    cases hf : entries.findSome? (zoneReading h) with
    | none =>
      rw [hf] at ht
      exact Except.noConfusion ht
    | some v =>
      rw [hf] at ht
      injection ht with ht
      subst ht
      obtain ⟨name, hmem, hz⟩ := findSome?_mem (zoneReading h) entries v hf
      obtain ⟨hp, htemp, typeData, hty, hl⟩ := zoneReading_eq_some h name v hz
      exact ⟨name, typeData, hmem, hp, htemp, hty, hl⟩
  · intro name typeData hty hl
    unfold zoneReading
    rw [hty]
    split
    · split
      · simp [hl]
      · rfl
    · rfl

theorem zoneHost_zone0 : zoneReading zoneHost "thermal_zone0" = none := by
  have hp : hasPrefixStr "thermal_zone0" "thermal_zone" = true := by decide
  have hl : isCPULabel (trimSpace "acpitz\n") = false := by decide
  have e1 : pathJoin thermalDir "thermal_zone0" "type" =
      "/sys/class/thermal/thermal_zone0/type" := by decide
  unfold zoneReading
  rw [hp, e1]
  simp only [if_true]
  split
  · simp [zoneHost, hl]
  · rfl

theorem zoneHost_zone1 : zoneReading zoneHost "thermal_zone1" = some (45 : ℚ) := by
  have hp : hasPrefixStr "thermal_zone1" "thermal_zone" = true := by decide
  have hl : isCPULabel (trimSpace "x86_pkg_temp\n") = true := by decide
  have e0 : pathJoin thermalDir "thermal_zone1" "temp" =
      "/sys/class/thermal/thermal_zone1/temp" := by decide
  have e1 : pathJoin thermalDir "thermal_zone1" "type" =
      "/sys/class/thermal/thermal_zone1/type" := by decide
  have hc : contains "/sys/class/thermal/thermal_zone1/temp" "*" = false := by decide
  have ht : trimSpace "45000\n" = "45000" := by decide
  have hf : decimalFloat "45000" = .ok (45000 : ℚ) := by
    simp [decimalFloat, decimalUnsigned, digitsValue]
  have hr : readThermalFile zoneHost "/sys/class/thermal/thermal_zone1/temp" = .ok (45 : ℚ) := by
    simp only [readThermalFile, hc, zoneHost, sampleHost]
    simp [ht, hf]
    norm_num
  unfold zoneReading
  rw [hp, e0, e1, hr]
  simp [zoneHost, hl]

/-- Witness for C14: a cooling device and an ACPI zone come first and are
passed over; the x86 package zone is selected, the CPU zone after it is not
reached. -/
theorem findThermalZone_first_cpu_zone_witness :
    zoneHost.readDir thermalDir =
        .ok ["cooling_device0", "thermal_zone0", "thermal_zone1", "thermal_zone2"] ∧
      findThermalZone zoneHost = .ok (45 : ℚ) :=
  ⟨rfl,
    (findThermalZone_first_cpu_zone zoneHost
        ["cooling_device0", "thermal_zone0", "thermal_zone1", "thermal_zone2"] rfl).1
      ["cooling_device0", "thermal_zone0"] "thermal_zone1" ["thermal_zone2"] 45 rfl
      (fun z hz => by
        simp only [List.mem_cons, List.mem_singleton, List.not_mem_nil, or_false] at hz
        rcases hz with rfl | rfl
        · have hp : hasPrefixStr "cooling_device0" "thermal_zone" = false := by decide
          simp [zoneReading, hp]
        · exact zoneHost_zone0)
      zoneHost_zone1⟩

end PMonitor
